import Mathlib

/-!
Verification of the identifier-assignment and reconciliation engine of the
strapi-auto-uuid plugin.  The definitions below are a shallow embedding of
the JavaScript source: the lifecycle hooks of `server/src/bootstrap.js`
(beforeCreate, beforeUpdate, generateUniqueUuid, checkUuidExists,
getDocumentIdFromWhere), the duplicate service (findDuplicatesForField,
fixDuplicatesForField), the migration service (checkMigrationStatus,
runMigration, importMappings) and the value generator (the `uuid` npm
package's v4/v7 layouts and its `validate` regex).  The entropy source is
modelled as an explicit stream; the datastore is modelled as lists of
(rowId, documentId, value) rows per monitored (contentType, field) pair,
queried and updated exactly the way the Document Service calls in the
source do.
-/

set_option maxRecDepth 4000

namespace AutoUuid

/-- JavaScript truthiness of an optional string: `undefined` / `null` and
the empty string are falsy.  The source tests values, documentIds and
options with bare `if (x)` checks, which this mirrors. -/
def truthy : Option String → Bool
  | none => false
  | some s => s != ""

/-- JavaScript truthiness of an optional numeric id (0 is falsy). -/
def truthyNat : Option Nat → Bool
  | none => false
  | some n => n != 0

/-- Hex digit check, both cases, as in the uuid package's validation
regex with the /i flag. -/
def isHexDigit (c : Char) : Bool :=
  (decide ('0' ≤ c) && decide (c ≤ '9')) ||
  (decide ('a' ≤ c) && decide (c ≤ 'f')) ||
  (decide ('A' ≤ c) && decide (c ≤ 'F'))

/-- Version nibble of the general alternative of the regex: [1-8]. -/
def isVersionChar (c : Char) : Bool :=
  decide ('1' ≤ c) && decide (c ≤ '8')

/-- Variant nibble: [89ab] with /i. -/
def isVariantChar (c : Char) : Bool :=
  c == '8' || c == '9' || c == 'a' || c == 'b' || c == 'A' || c == 'B'

/-- One position of the standard 36-character layout. -/
def uuidCharOk (i : Nat) (c : Char) : Bool :=
  if i == 8 || i == 13 || i == 18 || i == 23 then c == '-'
  else if i == 14 then isVersionChar c
  else if i == 19 then isVariantChar c
  else isHexDigit c

/-- `validate` from the uuid npm package: the standard hex-and-hyphen
36-character layout with version nibble 1-8 and variant nibble 89ab,
case-insensitive, plus the nil and max UUIDs as special alternatives. -/
def validateUuid (s : String) : Bool :=
  (s.data.length == 36 &&
    (List.range 36).all (fun i => uuidCharOk i (s.data.getD i ' '))) ||
  s == "00000000-0000-0000-0000-000000000000" ||
  (s.data.length == 36 &&
    (List.range 36).all (fun i =>
      if i == 8 || i == 13 || i == 18 || i == 23 then s.data.getD i ' ' == '-'
      else s.data.getD i ' ' == 'f' || s.data.getD i ' ' == 'F'))

/-- A random nibble. -/
def nib (x : Nat) : Fin 16 := ⟨x % 16, by omega⟩

/-- Lower-case hex digit of a nibble, as produced by the uuid package's
byte-to-hex table. -/
def hexChar (i : Fin 16) : Char :=
  ("0123456789abcdef".data).getD i.val '0'

/-- Nibble `k` (big-endian weight) of the millisecond timestamp used by
the v7 layout. -/
def tsNib (ts k : Nat) : Fin 16 := nib (ts / 16 ^ k)

/-- The v4 layout produced by `uuidv4()`: 30 random nibbles around the
fixed version nibble 4 and a variant nibble in 8..b, drawn from the
entropy stream `r`. -/
def uuidv4From (r : Nat → Fin 16) : String :=
  String.mk
    [hexChar (r 0), hexChar (r 1), hexChar (r 2), hexChar (r 3),
     hexChar (r 4), hexChar (r 5), hexChar (r 6), hexChar (r 7), '-',
     hexChar (r 8), hexChar (r 9), hexChar (r 10), hexChar (r 11), '-',
     '4', hexChar (r 12), hexChar (r 13), hexChar (r 14), '-',
     hexChar (nib (8 + (r 15).val % 4)), hexChar (r 16), hexChar (r 17), hexChar (r 18), '-',
     hexChar (r 19), hexChar (r 20), hexChar (r 21), hexChar (r 22),
     hexChar (r 23), hexChar (r 24), hexChar (r 25), hexChar (r 26),
     hexChar (r 27), hexChar (r 28), hexChar (r 29), hexChar (r 30)]

/-- The v7 layout produced by `uuidv7()`: 48-bit millisecond timestamp in
the first 12 nibbles, version nibble 7, variant nibble in 8..b, random
nibbles elsewhere. -/
def uuidv7From (ts : Nat) (r : Nat → Fin 16) : String :=
  String.mk
    [hexChar (tsNib ts 11), hexChar (tsNib ts 10), hexChar (tsNib ts 9), hexChar (tsNib ts 8),
     hexChar (tsNib ts 7), hexChar (tsNib ts 6), hexChar (tsNib ts 5), hexChar (tsNib ts 4), '-',
     hexChar (tsNib ts 3), hexChar (tsNib ts 2), hexChar (tsNib ts 1), hexChar (tsNib ts 0), '-',
     '7', hexChar (r 0), hexChar (r 1), hexChar (r 2), '-',
     hexChar (nib (8 + (r 3).val % 4)), hexChar (r 4), hexChar (r 5), hexChar (r 6), '-',
     hexChar (r 7), hexChar (r 8), hexChar (r 9), hexChar (r 10),
     hexChar (r 11), hexChar (r 12), hexChar (r 13), hexChar (r 14),
     hexChar (r 15), hexChar (r 16), hexChar (r 17), hexChar (r 18)]

/-- `generateUuid` from bootstrap.js lines 46-48: picks v7 or v4 by the
configured version string.  Note that it takes no prefix of any kind:
the per-field `uuid-prefix` option registered by the admin UI is never
read anywhere on the server. -/
def generateUuid (version : String) (ts : Nat) (r : Nat → Fin 16) : String :=
  if version == "v7" then uuidv7From ts r else uuidv4From r

/-- One stored row of a monitored (contentType, field) pair, as seen by
the Document Service queries of the source: its numeric row id, its
documentId (the Record Identity) and the value of the monitored field
(`none` models SQL NULL / an absent value). -/
structure Entry where
  rowId : Nat
  documentId : String
  value : Option String
deriving DecidableEq

/-- All rows of one monitored (contentType, field) pair. -/
abbrev Store := List Entry

/-- The plugin configuration switches consulted by the lifecycle hooks. -/
structure Config where
  autoGenerate : Bool
  validateUniqueness : Bool
  maxRetryAttempts : Nat
deriving DecidableEq

/-- `checkUuidExists` from bootstrap.js lines 102-122: when uniqueness
validation is disabled it reports not-found without querying; otherwise
it runs `findFirst` with a filter on the field value, adding a
documentId $ne filter only when `excludeDocumentId` is truthy, and
returns the exists flag together with the owner documentId (the source's
`existing?.documentId || null` maps an empty documentId to null). -/
def checkUuidExists (cfg : Config) (store : Store) (uuid : String)
    (excludeDocumentId : Option String) : Bool × Option String :=
  if cfg.validateUniqueness = false then (false, none)
  else
    match store.find? (fun e =>
        e.value == some uuid &&
        (if truthy excludeDocumentId then e.documentId != excludeDocumentId.getD "" else true)) with
    | some e => (true, if e.documentId == "" then none else some e.documentId)
    | none => (false, none)

/-- `isUuidExists` from bootstrap.js lines 127-130. -/
def isUuidExists (cfg : Config) (store : Store) (uuid : String)
    (excludeDocumentId : Option String) : Bool :=
  (checkUuidExists cfg store uuid excludeDocumentId).1

/-- The error values thrown by the hooks (ApplicationError on retry
exhaustion, ValidationError on a bad update). -/
inductive HookError where
  | generationExhausted
  | invalidFormat (value : String)
  | duplicateValue (value : String)
deriving DecidableEq

/-- The retry loop body of `generateUniqueUuid` (bootstrap.js lines
139-161), with the remaining attempt count as fuel and the entropy
stream position `n` threaded through: each attempt draws `g n`, returns
it immediately when uniqueness validation is off, returns it when the
existence check is negative, and otherwise retries. -/
def genLoop (cfg : Config) (store : Store) (g : Nat → String) :
    Nat → Nat → Except HookError (String × Nat)
  | _, 0 => .error .generationExhausted
  | n, fuel + 1 =>
    let newUuid := g n
    if cfg.validateUniqueness = false then .ok (newUuid, n + 1)
    else if isUuidExists cfg store newUuid none then genLoop cfg store g (n + 1) fuel
    else .ok (newUuid, n + 1)

/-- `generateUniqueUuid`: at most `maxRetryAttempts` attempts, then an
ApplicationError. -/
def generateUniqueUuid (cfg : Config) (store : Store) (g : Nat → String)
    (n : Nat) : Except HookError (String × Nat) :=
  genLoop cfg store g n cfg.maxRetryAttempts

/-- The parts of a beforeCreate lifecycle event the hook reads for one
monitored field: the incoming field value `params.data[field]`, the
incoming `params.data.documentId` and the `params.where?.documentId`. -/
structure CreateParams where
  value : Option String
  dataDocumentId : Option String
  whereDocumentId : Option String
deriving DecidableEq

/-- `params.data?.documentId || params.where?.documentId` from
bootstrap.js line 203. -/
def currentDocIdOf (p : CreateParams) : Option String :=
  if truthy p.dataDocumentId then p.dataDocumentId else p.whereDocumentId

/-- The beforeCreate hook of bootstrap.js lines 195-251, for one
monitored field.  Returns the resolved value of `params.data[field]`
together with the new entropy position, or the thrown error.
Branch structure as in the source: auto-generate when the value is
falsy or fails validation and autoGenerate is on; otherwise, when the
value is truthy and uniqueness validation is on and the value already
exists, keep it when the owner documentId equals the current documentId,
keep it when there is no current documentId but an owner was reported
(the publish heuristic), and otherwise replace it through the retry
loop. -/
def beforeCreate (cfg : Config) (store : Store) (g : Nat → String) (n : Nat)
    (p : CreateParams) : Except HookError (Option String × Nat) :=
  let currentValue := p.value
  let currentDocumentId := currentDocIdOf p
  if (!truthy currentValue || !validateUuid (currentValue.getD "")) && cfg.autoGenerate then
    match generateUniqueUuid cfg store g n with
    | .ok (u, n2) => .ok (some u, n2)
    | .error e => .error e
  else if truthy currentValue && cfg.validateUniqueness then
    let res := checkUuidExists cfg store (currentValue.getD "") none
    if res.1 then
      if truthy currentDocumentId && (res.2 == currentDocumentId) then
        .ok (currentValue, n)
      else if !truthy currentDocumentId && truthy res.2 then
        .ok (currentValue, n)
      else
        match generateUniqueUuid cfg store g n with
        | .ok (u, n2) => .ok (some u, n2)
        | .error e => .error e
    else .ok (currentValue, n)
  else .ok (currentValue, n)

/-- The create as committed by the datastore after the hook: the row is
inserted with the resolved value under the documentId the datastore
assigns to it; a thrown hook error aborts the create, nothing is
persisted. -/
def processCreate (cfg : Config) (store : Store) (g : Nat → String) (n : Nat)
    (p : CreateParams) (newDocId : String) (newRowId : Nat) :
    Except HookError Store :=
  match beforeCreate cfg store g n p with
  | .ok (v, _) => .ok (⟨newRowId, newDocId, v⟩ :: store)
  | .error e => .error e

/-- The where clause of an update lifecycle event. -/
structure WhereClause where
  documentId : Option String
  id : Option Nat
deriving DecidableEq

/-- `getDocumentIdFromWhere` from bootstrap.js lines 169-185: take the
documentId from the where clause when truthy, otherwise resolve a truthy
row id through findFirst, otherwise null. -/
def getDocumentIdFromWhere (store : Store) (w : Option WhereClause) : Option String :=
  match w with
  | none => none
  | some wc =>
    if truthy wc.documentId then wc.documentId
    else if truthyNat wc.id then
      match store.find? (fun e => e.rowId == wc.id.getD 0) with
      | some e => if e.documentId == "" then none else some e.documentId
      | none => none
    else none

/-- The parts of a beforeUpdate lifecycle event the hook reads for one
monitored field: `params.data[field]` (outer `none` models the key being
absent from the update data, inner `none` models an explicit null) and
the where clause. -/
structure UpdateParams where
  dataValue : Option (Option String)
  whereClause : Option WhereClause
deriving DecidableEq

/-- The beforeUpdate hook of bootstrap.js lines 257-291, for one
monitored field: a silent return when no documentId can be resolved or
the field is absent from the data; a ValidationError when a truthy new
value fails format validation; a ValidationError when a truthy new value
is held by a different documentId and uniqueness validation is on. -/
def beforeUpdate (cfg : Config) (store : Store) (p : UpdateParams) :
    Except HookError Unit :=
  match getDocumentIdFromWhere store p.whereClause with
  | none => .ok ()
  | some documentId =>
    match p.dataValue with
    | none => .ok ()
    | some newValue =>
      if truthy newValue && !validateUuid (newValue.getD "") then
        .error (.invalidFormat (newValue.getD ""))
      else if truthy newValue && cfg.validateUniqueness then
        if isUuidExists cfg store (newValue.getD "") (some documentId) then
          .error (.duplicateValue (newValue.getD ""))
        else .ok ()
      else .ok ()

/-- Document Service update of one documentId: set the monitored field on
every row of that document, leave other rows untouched. -/
def applyUpdate (store : Store) (docId : String) (v : Option String) : Store :=
  store.map (fun e => if e.documentId == docId then ⟨e.rowId, e.documentId, v⟩ else e)

/-- The update as committed by the datastore after the hook: a rejected
hook aborts the write; otherwise, when the event resolves to a document
and carries the field, that value is stored; an update whose data does
not contain the field leaves the store unchanged. -/
def processUpdate (cfg : Config) (store : Store) (p : UpdateParams) :
    Except HookError Store :=
  match beforeUpdate cfg store p with
  | .error e => .error e
  | .ok _ =>
    match getDocumentIdFromWhere store p.whereClause, p.dataValue with
    | some d, some v => .ok (applyUpdate store d v)
    | _, _ => .ok store

/-- The uniqueness invariant of the spec for one monitored pair: no two
rows with distinct Record Identities hold the same truthy value. -/
def UniqueValues (store : Store) : Prop :=
  ∀ e1 ∈ store, ∀ e2 ∈ store,
    e1.documentId ≠ e2.documentId → truthy e1.value = true → e1.value ≠ e2.value

instance (store : Store) : Decidable (UniqueValues store) := by
  unfold UniqueValues; infer_instance

/-- Concatenation of the images of a list mapping, used to talk about all
documentIds contained in a list of duplicate groups. -/
def flatMapL (f : α → List β) : List α → List β
  | [] => []
  | a :: l => f a ++ flatMapL f l

/-- Insertion of one documentId into the value-indexed group list, in the
insertion order a JS object / Map maintains: an existing key gets the id
appended, a new key goes to the back. -/
def insertGroup : List (String × List String) → String → String → List (String × List String)
  | [], u, d => [(u, [d])]
  | (v, ds) :: rest, u, d =>
    if v == u then (v, ds ++ [d]) :: rest
    else (v, ds) :: insertGroup rest u d

/-- The value-grouping pass shared verbatim by findDuplicatesForField
(service, part of the duplicate diagnosis) and the duplicate tracking of
checkMigrationStatus: walk the rows in scan order and index documentIds
by truthy field value, skipping falsy values. -/
def groupByValue (entries : List Entry) : List (String × List String) :=
  entries.foldl (fun gs e =>
    match e.value with
    | none => gs
    | some u => if u == "" then gs else insertGroup gs u e.documentId) []

/-- One duplicate group as reported by findDuplicatesForField. -/
structure DupGroup where
  uuid : String
  count : Nat
  documentIds : List String
deriving DecidableEq

/-- `findDuplicatesForField` from the service (part_002 lines 133-165):
group all truthy values, keep the groups holding more than one
documentId. -/
def findDuplicatesForField (entries : List Entry) : List DupGroup :=
  (groupByValue entries).filterMap (fun p =>
    if p.2.length > 1 then some ⟨p.1, p.2.length, p.2⟩ else none)

/-- An issue recorded by checkMigrationStatus. -/
inductive Issue where
  | invalid (documentId : String) (value : String)
  | duplicate (uuid : String) (count : Nat) (documentIds : List String)
deriving DecidableEq

/-- The invalid issues of one field, in scan order: truthy values failing
format validation (falsy values are counted as empty instead). -/
def invalidIssuesOf (entries : List Entry) : List Issue :=
  entries.filterMap (fun e =>
    match e.value with
    | none => none
    | some u =>
      if u == "" then none
      else if validateUuid u then none
      else some (.invalid e.documentId u))

/-- The empty count of one field: rows with a falsy value. -/
def emptyCountOf (entries : List Entry) : Nat :=
  (entries.filter (fun e => !truthy e.value)).length

/-- The duplicate issues of one field: groups of more than one
documentId sharing a truthy value, in first-occurrence order. -/
def duplicateIssuesOf (entries : List Entry) : List Issue :=
  (groupByValue entries).filterMap (fun p =>
    if p.2.length > 1 then some (.duplicate p.1 p.2.length p.2) else none)

/-- duplicateCount of checkMigrationStatus: group size minus one summed
over all duplicate groups. -/
def duplicateCountOf (entries : List Entry) : Nat :=
  ((groupByValue entries).filterMap (fun p =>
    if p.2.length > 1 then some (p.2.length - 1) else none)).sum

/-- The rows of one monitored (contentType, field) pair inside the whole
datastore. -/
structure FieldState where
  uid : String
  field : String
  entries : List Entry
deriving DecidableEq

/-- The datastore across all monitored pairs. -/
abbrev World := List FieldState

/-- The per-field report assembled by checkMigrationStatus (part_003
lines 26-121): counts per category plus the issue list, invalid issues
first (pushed during the row scan), duplicate issues after them. -/
structure FieldInfo where
  uid : String
  field : String
  emptyCount : Nat
  invalidCount : Nat
  duplicateCount : Nat
  issues : List Issue
deriving DecidableEq

def fieldInfoOf (fs : FieldState) : FieldInfo :=
  ⟨fs.uid, fs.field, emptyCountOf fs.entries, (invalidIssuesOf fs.entries).length,
   duplicateCountOf fs.entries, invalidIssuesOf fs.entries ++ duplicateIssuesOf fs.entries⟩

/-- `checkMigrationStatus`: the per-field reports in schema order. -/
def checkMigrationStatus (w : World) : List FieldInfo := w.map fieldInfoOf

/-- All documentIds distributed over a group list. -/
def allDocIds (gs : List (String × List String)) : List String := flatMapL Prod.snd gs

/-- One change entry pushed by fixDuplicatesForField: the repaired
documentId, the shared old value, the freshly drawn new value and the
documentId that was kept. -/
structure FixChange where
  documentId : String
  oldUuid : String
  newUuid : String
  kept : String
deriving DecidableEq

/-- The fix report of fixDuplicatesForField. -/
structure FixReport where
  found : Nat
  fixed : Nat
  changes : List FixChange
deriving DecidableEq

/-- Intermediate state of the fix loops. -/
structure SvcFixOut where
  changes : List FixChange
  fixed : Nat
  store : Store
  genPos : Nat
deriving DecidableEq

/-- The inner loop of fixDuplicatesForField over the non-kept members of
one duplicate group: draw the next candidate straight from the entropy
stream — the source calls bare `uuidv4()` here, with no uniqueness check
against the datastore — record the change, and issue the write unless in
dry-run mode. -/
def svcFixMembers (g : Nat → String) (dryRun : Bool) (groupUuid keep : String) :
    List String → Store → Nat → SvcFixOut
  | [], s, n => ⟨[], 0, s, n⟩
  | d :: rest, s, n =>
    let newUuid := g n
    let s2 := if dryRun then s else applyUpdate s d (some newUuid)
    let out := svcFixMembers g dryRun groupUuid keep rest s2 (n + 1)
    ⟨⟨d, groupUuid, newUuid, keep⟩ :: out.changes, out.fixed + 1, out.store, out.genPos⟩

/-- The outer loop of fixDuplicatesForField over the duplicate groups:
destructure each group into its first documentId (kept) and the rest
(repaired). -/
def svcFixGroups (g : Nat → String) (dryRun : Bool) :
    List DupGroup → Store → Nat → SvcFixOut
  | [], s, n => ⟨[], 0, s, n⟩
  | grp :: rest, s, n =>
    match grp.documentIds with
    | [] => svcFixGroups g dryRun rest s n
    | keep :: fixIds =>
      let o1 := svcFixMembers g dryRun grp.uuid keep fixIds s n
      let o2 := svcFixGroups g dryRun rest o1.store o1.genPos
      ⟨o1.changes ++ o2.changes, o1.fixed + o2.fixed, o2.store, o2.genPos⟩

/-- `fixDuplicatesForField` from the service (part_002 lines 212-247):
find the duplicate groups of the field, keep the first documentId of
each group and reassign every other member a fresh draw from the
entropy stream. -/
def fixDuplicatesForField (g : Nat → String) (dryRun : Bool) (store : Store) (n : Nat) :
    FixReport × Store × Nat :=
  let dups := findDuplicatesForField store
  let o := svcFixGroups g dryRun dups store n
  (⟨dups.length, o.fixed, o.changes⟩, o.store, o.genPos)

/-- The value currently held by a documentId, through the same findFirst
scan the Document Service performs. -/
def lookupValue (s : Store) (d : String) : Option (Option String) :=
  (s.find? (fun e => e.documentId == d)).map (fun e => e.value)

/-- Category tag of a runMigration change entry. -/
inductive FixKind where
  | emptyFix
  | invalidFix
  | duplicateFix
deriving DecidableEq

/-- One entry of runMigration's change log, as pushed by the source:
type tag, uid, field, documentId, old and new value, and (for duplicate
fixes) the kept documentId. -/
structure MigChange where
  kind : FixKind
  uid : String
  field : String
  documentId : String
  oldValue : Option String
  newValue : String
  keptDocumentId : Option String
deriving DecidableEq

/-- The three error messages runMigration pushes: a per-field message
when the empty-category loop throws, and per-record messages for
invalid and duplicate fixes. -/
inductive MigError where
  | emptyFieldError (uid field : String)
  | invalidFixError (uid field documentId : String)
  | duplicateFixError (uid field documentId : String)
deriving DecidableEq

/-- runMigration options. -/
structure MigOptions where
  dryRun : Bool
  fixEmpty : Bool
  fixInvalid : Bool
  fixDuplicates : Bool
deriving DecidableEq

/-- runMigration result (timestamps omitted: wall-clock strings).  The
dryRun flag is echoed into the result, exactly as in the source. -/
structure MigrationResult where
  dryRun : Bool
  fixedEmpty : Nat
  fixedInvalid : Nat
  fixedDuplicates : Nat
  errors : List MigError
  changes : List MigChange
deriving DecidableEq

/-- The column of one monitored (uid, field) pair inside the world. -/
def columnOf (w : World) (uid field : String) : Option FieldState :=
  w.find? (fun fs => fs.uid == uid && fs.field == field)

/-- The live re-query runMigration makes for the empty category:
`findMany` with an $or filter on null and the empty string. -/
def emptyEntriesOf (w : World) (uid field : String) : List Entry :=
  match columnOf w uid field with
  | some fs => fs.entries.filter (fun e => !truthy e.value)
  | none => []

/-- A Document Service update of one documentId in one column. -/
def updateField (w : World) (uid field docId : String) (v : String) : World :=
  w.map (fun fs =>
    if fs.uid == uid && fs.field == field then
      ⟨fs.uid, fs.field, applyUpdate fs.entries docId (some v)⟩
    else fs)

/-- An update that may throw: documentIds in `failing` model records
whose write the datastore rejects. -/
def tryUpdate (failing : List String) (w : World) (uid field docId v : String) :
    Except Unit World :=
  if docId ∈ failing then .error () else .ok (updateField w uid field docId v)

/-- Output of one category loop of runMigration. -/
structure StepOut where
  changes : List MigChange
  fixed : Nat
  errs : List MigError
  world : World
  genPos : Nat
deriving DecidableEq

/-- The empty-category loop of runMigration (part_003 lines 155-190).
The try/catch wraps the WHOLE loop, so a failing write aborts the
remaining empty entries of the field with a single field-level error;
the change for the failing record has already been pushed. -/
def emptyFixLoop (g : Nat → String) (failing : List String) (dryRun : Bool)
    (uid field : String) : List Entry → World → Nat → StepOut
  | [], w, n => ⟨[], 0, [], w, n⟩
  | e :: rest, w, n =>
    let newUuid := g n
    if dryRun then
      let out := emptyFixLoop g failing dryRun uid field rest w (n + 1)
      ⟨⟨.emptyFix, uid, field, e.documentId, none, newUuid, none⟩ :: out.changes,
       out.fixed + 1, out.errs, out.world, out.genPos⟩
    else
      match tryUpdate failing w uid field e.documentId newUuid with
      | .ok w2 =>
        let out := emptyFixLoop g failing dryRun uid field rest w2 (n + 1)
        ⟨⟨.emptyFix, uid, field, e.documentId, none, newUuid, none⟩ :: out.changes,
         out.fixed + 1, out.errs, out.world, out.genPos⟩
      | .error _ =>
        ⟨[⟨.emptyFix, uid, field, e.documentId, none, newUuid, none⟩], 0,
         [.emptyFieldError uid field], w, n + 1⟩

/-- The invalid-category loop of runMigration (part_003 lines 193-220):
per-record try/catch, so a failing write logs a per-record error and the
loop continues. -/
def invalidFixLoop (g : Nat → String) (failing : List String) (dryRun : Bool)
    (uid field : String) : List (String × String) → World → Nat → StepOut
  | [], w, n => ⟨[], 0, [], w, n⟩
  | issue :: rest, w, n =>
    let newUuid := g n
    let change : MigChange := ⟨.invalidFix, uid, field, issue.1, some issue.2, newUuid, none⟩
    if dryRun then
      let out := invalidFixLoop g failing dryRun uid field rest w (n + 1)
      ⟨change :: out.changes, out.fixed + 1, out.errs, out.world, out.genPos⟩
    else
      match tryUpdate failing w uid field issue.1 newUuid with
      | .ok w2 =>
        let out := invalidFixLoop g failing dryRun uid field rest w2 (n + 1)
        ⟨change :: out.changes, out.fixed + 1, out.errs, out.world, out.genPos⟩
      | .error _ =>
        let out := invalidFixLoop g failing dryRun uid field rest w (n + 1)
        ⟨change :: out.changes, out.fixed,
         .invalidFixError uid field issue.1 :: out.errs, out.world, out.genPos⟩

/-- Inner loop of the duplicate category over the non-kept members of one
group, per-record try/catch as in the source (part_003 lines 229-254). -/
def dupFixMembers (g : Nat → String) (failing : List String) (dryRun : Bool)
    (uid field groupUuid keep : String) : List String → World → Nat → StepOut
  | [], w, n => ⟨[], 0, [], w, n⟩
  | docId :: rest, w, n =>
    let newUuid := g n
    let change : MigChange :=
      ⟨.duplicateFix, uid, field, docId, some groupUuid, newUuid, some keep⟩
    if dryRun then
      let out := dupFixMembers g failing dryRun uid field groupUuid keep rest w (n + 1)
      ⟨change :: out.changes, out.fixed + 1, out.errs, out.world, out.genPos⟩
    else
      match tryUpdate failing w uid field docId newUuid with
      | .ok w2 =>
        let out := dupFixMembers g failing dryRun uid field groupUuid keep rest w2 (n + 1)
        ⟨change :: out.changes, out.fixed + 1, out.errs, out.world, out.genPos⟩
      | .error _ =>
        let out := dupFixMembers g failing dryRun uid field groupUuid keep rest w (n + 1)
        ⟨change :: out.changes, out.fixed,
         .duplicateFixError uid field docId :: out.errs, out.world, out.genPos⟩

/-- Outer loop of the duplicate category over the duplicate issues. -/
def dupFixLoop (g : Nat → String) (failing : List String) (dryRun : Bool)
    (uid field : String) : List (String × List String) → World → Nat → StepOut
  | [], w, n => ⟨[], 0, [], w, n⟩
  | issue :: rest, w, n =>
    match issue.2 with
    | [] => dupFixLoop g failing dryRun uid field rest w n
    | keep :: fixIds =>
      let o1 := dupFixMembers g failing dryRun uid field issue.1 keep fixIds w n
      let o2 := dupFixLoop g failing dryRun uid field rest o1.world o1.genPos
      ⟨o1.changes ++ o2.changes, o1.fixed + o2.fixed, o1.errs ++ o2.errs,
       o2.world, o2.genPos⟩

/-- `issues.filter(i => i.type === invalid)` of the source, carrying the
documentId and offending value. -/
def invalidsOf (info : FieldInfo) : List (String × String) :=
  info.issues.filterMap (fun i =>
    match i with
    | .invalid dcid val => some (dcid, val)
    | _ => none)

/-- `issues.filter(i => i.type === duplicate)`. -/
def dupsOf (info : FieldInfo) : List (String × List String) :=
  info.issues.filterMap (fun i =>
    match i with
    | .duplicate u _ ds => some (u, ds)
    | _ => none)

/-- Output of one field's processing inside runMigration. -/
structure FieldOut where
  changes : List MigChange
  fixedEmpty : Nat
  fixedInvalid : Nat
  fixedDuplicates : Nat
  errs : List MigError
  world : World
  genPos : Nat
deriving DecidableEq

/-- One field of runMigration's main loop: empty category (guarded by
the status's emptyCount and re-queried live), then the invalid and
duplicate categories from the precomputed issues. -/
def runFieldStep (g : Nat → String) (failing : List String) (opts : MigOptions)
    (info : FieldInfo) (w : World) (n : Nat) : FieldOut :=
  let o1 :=
    if opts.fixEmpty && decide (0 < info.emptyCount) then
      emptyFixLoop g failing opts.dryRun info.uid info.field
        (emptyEntriesOf w info.uid info.field) w n
    else ⟨[], 0, [], w, n⟩
  let o2 :=
    if opts.fixInvalid then
      invalidFixLoop g failing opts.dryRun info.uid info.field (invalidsOf info)
        o1.world o1.genPos
    else ⟨[], 0, [], o1.world, o1.genPos⟩
  let o3 :=
    if opts.fixDuplicates then
      dupFixLoop g failing opts.dryRun info.uid info.field (dupsOf info)
        o2.world o2.genPos
    else ⟨[], 0, [], o2.world, o2.genPos⟩
  ⟨o1.changes ++ o2.changes ++ o3.changes, o1.fixed, o2.fixed, o3.fixed,
   o1.errs ++ o2.errs ++ o3.errs, o3.world, o3.genPos⟩

/-- The main loop of runMigration over the per-field status reports. -/
def runMigrationLoop (g : Nat → String) (failing : List String) (opts : MigOptions) :
    List FieldInfo → World → Nat → FieldOut
  | [], w, n => ⟨[], 0, 0, 0, [], w, n⟩
  | info :: rest, w, n =>
    let o := runFieldStep g failing opts info w n
    let r := runMigrationLoop g failing opts rest o.world o.genPos
    ⟨o.changes ++ r.changes, o.fixedEmpty + r.fixedEmpty, o.fixedInvalid + r.fixedInvalid,
     o.fixedDuplicates + r.fixedDuplicates, o.errs ++ r.errs, r.world, r.genPos⟩

/-- `runMigration` from part_003 lines 132-267: compute the status once,
then walk the fields fixing the selected categories, echoing the dryRun
flag into the result.  Returns the result together with the final
world. -/
def runMigration (g : Nat → String) (failing : List String) (opts : MigOptions)
    (w : World) (n : Nat) : MigrationResult × World :=
  let o := runMigrationLoop g failing opts (checkMigrationStatus w) w n
  (⟨opts.dryRun, o.fixedEmpty, o.fixedInvalid, o.fixedDuplicates, o.errs, o.changes⟩, o.world)

/-- The parts of a category loop's output that the migration result
reports: change log, fixed count, error list and entropy position. -/
structure LogOut where
  changes : List MigChange
  fixed : Nat
  errs : List MigError
  genPos : Nat
deriving DecidableEq

def StepOut.log (o : StepOut) : LogOut := ⟨o.changes, o.fixed, o.errs, o.genPos⟩

/-- When no write fails, the empty-category loop's log depends only on
the scanned entries and the entropy position. -/
def emptyLogSpec (g : Nat → String) (uid field : String) : List Entry → Nat → LogOut
  | [], n => ⟨[], 0, [], n⟩
  | e :: rest, n =>
    let r := emptyLogSpec g uid field rest (n + 1)
    ⟨⟨.emptyFix, uid, field, e.documentId, none, g n, none⟩ :: r.changes,
     r.fixed + 1, r.errs, r.genPos⟩

def invalidLogSpec (g : Nat → String) (uid field : String) :
    List (String × String) → Nat → LogOut
  | [], n => ⟨[], 0, [], n⟩
  | issue :: rest, n =>
    let r := invalidLogSpec g uid field rest (n + 1)
    ⟨⟨.invalidFix, uid, field, issue.1, some issue.2, g n, none⟩ :: r.changes,
     r.fixed + 1, r.errs, r.genPos⟩

def dupMembersLogSpec (g : Nat → String) (uid field groupUuid keep : String) :
    List String → Nat → LogOut
  | [], n => ⟨[], 0, [], n⟩
  | dcid :: rest, n =>
    let r := dupMembersLogSpec g uid field groupUuid keep rest (n + 1)
    ⟨⟨.duplicateFix, uid, field, dcid, some groupUuid, g n, some keep⟩ :: r.changes,
     r.fixed + 1, r.errs, r.genPos⟩

def dupLogSpec (g : Nat → String) (uid field : String) :
    List (String × List String) → Nat → LogOut
  | [], n => ⟨[], 0, [], n⟩
  | issue :: rest, n =>
    match issue.2 with
    | [] => dupLogSpec g uid field rest n
    | keep :: fixIds =>
      let r1 := dupMembersLogSpec g uid field issue.1 keep fixIds n
      let r2 := dupLogSpec g uid field rest r1.genPos
      ⟨r1.changes ++ r2.changes, r1.fixed + r2.fixed, r1.errs ++ r2.errs, r2.genPos⟩

/-- The reported parts of one field's migration output. -/
structure FieldLog where
  changes : List MigChange
  fixedEmpty : Nat
  fixedInvalid : Nat
  fixedDuplicates : Nat
  errs : List MigError
  genPos : Nat
deriving DecidableEq

def FieldOut.flog (o : FieldOut) : FieldLog :=
  ⟨o.changes, o.fixedEmpty, o.fixedInvalid, o.fixedDuplicates, o.errs, o.genPos⟩

/-- The log of one field's migration step as a function of the status
info, the scanned empty entries and the entropy position only. -/
def fieldLogSpec (g : Nat → String) (fe fi fd : Bool) (info : FieldInfo)
    (es : List Entry) (n : Nat) : FieldLog :=
  let l1 := if fe && decide (0 < info.emptyCount) then
      emptyLogSpec g info.uid info.field es n
    else ⟨[], 0, [], n⟩
  let l2 := if fi then invalidLogSpec g info.uid info.field (invalidsOf info) l1.genPos
    else ⟨[], 0, [], l1.genPos⟩
  let l3 := if fd then dupLogSpec g info.uid info.field (dupsOf info) l2.genPos
    else ⟨[], 0, [], l2.genPos⟩
  ⟨l1.changes ++ l2.changes ++ l3.changes, l1.fixed, l2.fixed, l3.fixed,
   l1.errs ++ l2.errs ++ l3.errs, l3.genPos⟩

/-- The reported parts of the service fix output. -/
structure SvcLog where
  changes : List FixChange
  fixed : Nat
  genPos : Nat
deriving DecidableEq

def SvcFixOut.slog (o : SvcFixOut) : SvcLog := ⟨o.changes, o.fixed, o.genPos⟩

def svcMembersLogSpec (g : Nat → String) (groupUuid keep : String) :
    List String → Nat → SvcLog
  | [], n => ⟨[], 0, n⟩
  | d :: rest, n =>
    let r := svcMembersLogSpec g groupUuid keep rest (n + 1)
    ⟨⟨d, groupUuid, g n, keep⟩ :: r.changes, r.fixed + 1, r.genPos⟩

def svcGroupsLogSpec (g : Nat → String) : List DupGroup → Nat → SvcLog
  | [], n => ⟨[], 0, n⟩
  | grp :: rest, n =>
    match grp.documentIds with
    | [] => svcGroupsLogSpec g rest n
    | keep :: fixIds =>
      let r1 := svcMembersLogSpec g grp.uuid keep fixIds n
      let r2 := svcGroupsLogSpec g rest r1.genPos
      ⟨r1.changes ++ r2.changes, r1.fixed + r2.fixed, r2.genPos⟩

/-- The identity of a non-empty-category change: everything except the
freshly drawn value (which depends on how many candidates earlier loops
consumed). -/
def changeKey (c : MigChange) :
    Option (FixKind × String × String × String × Option String) :=
  match c.kind with
  | .emptyFix => none
  | _ => some (c.kind, c.uid, c.field, c.documentId, c.oldValue)

/-- The non-empty change keys contributed by one field, a function of
the status info and the selected categories only. -/
def fieldKeys (fi fd : Bool) (info : FieldInfo) :
    List (FixKind × String × String × String × Option String) :=
  (if fi then (invalidsOf info).map
    (fun issue => (FixKind.invalidFix, info.uid, info.field, issue.1, some issue.2)) else []) ++
  (if fd then flatMapL (fun issue => issue.2.tail.map
    (fun dcid => (FixKind.duplicateFix, info.uid, info.field, dcid, some issue.1)))
    (dupsOf info) else [])

def isInvalidFixError : MigError → Bool
  | .invalidFixError _ _ _ => true
  | _ => false

def isDuplicateFixError : MigError → Bool
  | .duplicateFixError _ _ _ => true
  | _ => false

/-- One entry of an import snapshot. -/
structure ImportEntry where
  documentId : Option String
  uuid : Option String
deriving DecidableEq

/-- One change entry pushed by importMappings. -/
structure ImportChange where
  uid : String
  field : String
  documentId : String
  oldValue : Option String
  newValue : String
deriving DecidableEq

/-- The two error messages importMappings pushes per entry. -/
inductive ImportError where
  | entryNotFound (uid documentId : String)
  | importFailed (uid documentId : String)
deriving DecidableEq

/-- Result of importMappings together with the final datastore. -/
structure ImportOut where
  imported : Nat
  skipped : Nat
  errors : List ImportError
  changes : List ImportChange
  world : World
deriving DecidableEq

/-- findFirst by documentId on one column. -/
def findDoc (w : World) (uid field docId : String) : Option Entry :=
  match columnOf w uid field with
  | some fs => fs.entries.find? (fun e => e.documentId == docId)
  | none => none

/-- The per-entry loop of importMappings (part_003 lines 331-372): skip
entries with a falsy documentId or value; look the target up by
documentId, logging a not-found error; skip when the field already holds
a truthy value and overwrite is off; otherwise push the change and,
unless in dry-run mode, issue the write, logging a per-entry error when
it fails (imported is only incremented after a successful write). -/
def importEntriesLoop (failing : List String) (dryRun overwrite : Bool)
    (uid field : String) : List ImportEntry → World → ImportOut
  | [], w => ⟨0, 0, [], [], w⟩
  | entry :: rest, w =>
    if !truthy entry.documentId || !truthy entry.uuid then
      let o := importEntriesLoop failing dryRun overwrite uid field rest w
      ⟨o.imported, o.skipped + 1, o.errors, o.changes, o.world⟩
    else
      let d := entry.documentId.getD ""
      let u := entry.uuid.getD ""
      match findDoc w uid field d with
      | none =>
        let o := importEntriesLoop failing dryRun overwrite uid field rest w
        ⟨o.imported, o.skipped + 1, .entryNotFound uid d :: o.errors, o.changes, o.world⟩
      | some ex =>
        if truthy ex.value && !overwrite then
          let o := importEntriesLoop failing dryRun overwrite uid field rest w
          ⟨o.imported, o.skipped + 1, o.errors, o.changes, o.world⟩
        else
          if dryRun then
            let o := importEntriesLoop failing dryRun overwrite uid field rest w
            ⟨o.imported + 1, o.skipped, o.errors,
             ⟨uid, field, d, ex.value, u⟩ :: o.changes, o.world⟩
          else
            match tryUpdate failing w uid field d u with
            | .ok w2 =>
              let o := importEntriesLoop failing dryRun overwrite uid field rest w2
              ⟨o.imported + 1, o.skipped, o.errors,
               ⟨uid, field, d, ex.value, u⟩ :: o.changes, o.world⟩
            | .error _ =>
              let o := importEntriesLoop failing dryRun overwrite uid field rest w
              ⟨o.imported, o.skipped, .importFailed uid d :: o.errors,
               ⟨uid, field, d, ex.value, u⟩ :: o.changes, o.world⟩

/-- Loop over the fields of one content type's mappings. -/
def importFieldsLoop (failing : List String) (dryRun overwrite : Bool) (uid : String) :
    List (String × List ImportEntry) → World → ImportOut
  | [], w => ⟨0, 0, [], [], w⟩
  | fld :: rest, w =>
    let o1 := importEntriesLoop failing dryRun overwrite uid fld.1 fld.2 w
    let o2 := importFieldsLoop failing dryRun overwrite uid rest o1.world
    ⟨o1.imported + o2.imported, o1.skipped + o2.skipped, o1.errors ++ o2.errors,
     o1.changes ++ o2.changes, o2.world⟩

/-- Loop over the content types of the mappings. -/
def importUidsLoop (failing : List String) (dryRun overwrite : Bool) :
    List (String × List (String × List ImportEntry)) → World → ImportOut
  | [], w => ⟨0, 0, [], [], w⟩
  | ct :: rest, w =>
    let o1 := importFieldsLoop failing dryRun overwrite ct.1 ct.2 w
    let o2 := importUidsLoop failing dryRun overwrite rest o1.world
    ⟨o1.imported + o2.imported, o1.skipped + o2.skipped, o1.errors ++ o2.errors,
     o1.changes ++ o2.changes, o2.world⟩

/-- `importMappings` from part_003 lines 315-377: walk the imported
mapping and apply each entry, with no format validation of the imported
value and no uniqueness check against other records. -/
def importMappings (failing : List String) (dryRun overwrite : Bool)
    (mappings : List (String × List (String × List ImportEntry))) (w : World) : ImportOut :=
  importUidsLoop failing dryRun overwrite mappings w

theorem hexChar_ne_u : ∀ x : Fin 16, ('u' == hexChar x) = false := by decide

/-- Claim C9: FALSE of the code as a matter of its own documentation.  The
claim says every value generated for a field configured with prefix `p`
starts with `p`; the README and the admin field options promise exactly
that for, e.g., prefix "usr_".  But the server-side generator ignores
the option entirely: every generated value is a bare 36-character UUID
whose first character is a hex digit, so it never starts with "usr_". -/
theorem c9_generator_never_applies_prefix :
    ∀ (version : String) (ts : Nat) (r : Nat → Fin 16),
      List.isPrefixOf ("usr_".data) (generateUuid version ts r).data = false := by
  intro version ts r
  unfold generateUuid
  by_cases h : (version == "v7") = true
  · simp only [h, if_true]
    show List.isPrefixOf ['u', 's', 'r', '_'] _ = false
    simp [uuidv7From, List.isPrefixOf, hexChar_ne_u]
  · simp only [Bool.not_eq_true] at h
    simp only [h, Bool.false_eq_true, if_false]
    show List.isPrefixOf ['u', 's', 'r', '_'] _ = false
    simp [uuidv4From, List.isPrefixOf, hexChar_ne_u]

theorem truthy_some_iff (s : String) : truthy (some s) = true ↔ s ≠ "" := by
  simp [truthy]

theorem isUuidExists_none_eq (cfg : Config) (store : Store) (u : String)
    (hval : cfg.validateUniqueness = true) :
    isUuidExists cfg store u none = (store.find? (fun e => e.value == some u)).isSome := by
  unfold isUuidExists checkUuidExists
  rw [hval]
  simp only [truthy, Bool.false_eq_true, if_false, Bool.and_true, show ¬(true = false) by simp]
  cases store.find? (fun e => e.value == some u) <;> simp

theorem isUuidExists_none_false (cfg : Config) (store : Store) (u : String)
    (hval : cfg.validateUniqueness = true)
    (h : isUuidExists cfg store u none = false) : ∀ e ∈ store, e.value ≠ some u := by
  rw [isUuidExists_none_eq cfg store u hval] at h
  intro e he hv
  cases hfind : store.find? (fun e => e.value == some u) with
  | some x => rw [hfind] at h; simp at h
  | none =>
    have := List.find?_eq_none.mp hfind e he
    simp [hv] at this

theorem genLoop_bound (cfg : Config) (store : Store) (g : Nat → String) :
    ∀ fuel n u n2, genLoop cfg store g n fuel = .ok (u, n2) → n < n2 ∧ n2 ≤ n + fuel := by
  intro fuel
  induction fuel with
  | zero => intro n u n2 h; simp [genLoop] at h
  | succ m ih =>
    intro n u n2 h
    unfold genLoop at h
    split at h
    · rw [Except.ok.injEq, Prod.mk.injEq] at h
      omega
    · simp only [] at h
      split at h
      · have := ih (n + 1) u n2 h
        omega
      · rw [Except.ok.injEq, Prod.mk.injEq] at h
        omega

theorem genLoop_exhaust (cfg : Config) (store : Store) (g : Nat → String)
    (hval : cfg.validateUniqueness = true) :
    ∀ fuel n,
      (∀ k, n ≤ k → k < n + fuel → isUuidExists cfg store (g k) none = true) →
      genLoop cfg store g n fuel = .error .generationExhausted := by
  intro fuel
  induction fuel with
  | zero => intro n _; simp [genLoop]
  | succ m ih =>
    intro n h
    unfold genLoop
    rw [hval]
    simp only [Bool.true_eq_false, if_false, show ¬(true = false) by simp]
    rw [h n (Nat.le_refl n) (by omega)]
    simp only [if_true]
    exact ih (n + 1) (fun k hk1 hk2 => h k (by omega) (by omega))

theorem genLoop_ok_fresh (cfg : Config) (store : Store) (g : Nat → String)
    (hval : cfg.validateUniqueness = true) :
    ∀ fuel n u n2, genLoop cfg store g n fuel = .ok (u, n2) →
      isUuidExists cfg store u none = false := by
  intro fuel
  induction fuel with
  | zero => intro n u n2 h; simp [genLoop] at h
  | succ m ih =>
    intro n u n2 h
    unfold genLoop at h
    rw [hval] at h
    simp only [Bool.true_eq_false, if_false, show ¬(true = false) by simp] at h
    split at h
    · exact ih (n + 1) u n2 h
    · rw [Except.ok.injEq, Prod.mk.injEq] at h
      rw [← h.1]
      rename_i hcond
      exact Bool.not_eq_true _ ▸ hcond

/-- Claim C5: the retry loop of generateUniqueUuid draws at most
maxRetryAttempts candidates; when uniqueness validation is on and every
candidate in the budget collides it throws the generation-exhaustion
ApplicationError; a returned value is never one the uniqueness check
reported as existing; and in the scenario maxRetryAttempts = 1 with a
collision on the only attempt, a create relying on auto-generation fails
with the generation-exhaustion error and persists nothing. -/
theorem c5_generate_unique_bounded (cfg : Config) (store : Store) (g : Nat → String) (n : Nat) :
    (∀ u n2, generateUniqueUuid cfg store g n = .ok (u, n2) →
      n < n2 ∧ n2 ≤ n + cfg.maxRetryAttempts) ∧
    (cfg.validateUniqueness = true →
      (∀ k, n ≤ k → k < n + cfg.maxRetryAttempts → isUuidExists cfg store (g k) none = true) →
      generateUniqueUuid cfg store g n = .error .generationExhausted) ∧
    (cfg.validateUniqueness = true → ∀ u n2,
      generateUniqueUuid cfg store g n = .ok (u, n2) →
      isUuidExists cfg store u none = false) ∧
    (cfg.maxRetryAttempts = 1 → cfg.validateUniqueness = true → cfg.autoGenerate = true →
      isUuidExists cfg store (g n) none = true →
      ∀ d rid, processCreate cfg store g n ⟨none, none, none⟩ d rid =
        .error .generationExhausted) := by
  refine ⟨fun u n2 h => genLoop_bound cfg store g cfg.maxRetryAttempts n u n2 h,
    fun hval h => genLoop_exhaust cfg store g hval cfg.maxRetryAttempts n h,
    fun hval u n2 h => genLoop_ok_fresh cfg store g hval cfg.maxRetryAttempts n u n2 h,
    fun hmax hval hauto hcol d rid => ?_⟩
  have hgen : generateUniqueUuid cfg store g n = .error .generationExhausted := by
    apply genLoop_exhaust cfg store g hval cfg.maxRetryAttempts n
    intro k hk1 hk2
    rw [hmax] at hk2
    have : k = n := by omega
    rw [this]
    exact hcol
  unfold processCreate beforeCreate
  simp only [truthy, Bool.not_false, Bool.true_or, hauto, Bool.and_true, if_true, hgen]

/-- Claim C5 witness: a concrete configuration with a single retry attempt and
an entropy stream whose only candidate collides with the stored value. -/
theorem c5_generate_unique_bounded_witness :
    processCreate ⟨true, true, 1⟩ [⟨1, "A", some "11111111-1111-4111-8111-111111111111"⟩]
      (fun _ => "11111111-1111-4111-8111-111111111111") 0 ⟨none, none, none⟩ "B" 2 =
      .error .generationExhausted :=
  (c5_generate_unique_bounded ⟨true, true, 1⟩
      [⟨1, "A", some "11111111-1111-4111-8111-111111111111"⟩]
      (fun _ => "11111111-1111-4111-8111-111111111111") 0).2.2.2
    rfl rfl rfl (by decide) "B" 2

/-- Claim C3 counterexample: the claim as stated is false.  The store holds
the (malformed) value "xyz" under documentId "A"; the incoming create
supplies that same value together with documentId "A", so the existing
owner's Record Identity equals the incoming one and the claim demands
the value be kept.  Because the value fails the format check and
autoGenerate is on, the hook instead replaces it through the generation
path. -/
theorem c3_counterexample :
    beforeCreate ⟨true, true, 3⟩ [⟨1, "A", some "xyz"⟩]
      (fun _ => "22222222-2222-4222-8222-222222222222") 0
      ⟨some "xyz", some "A", none⟩ =
      .ok (some "22222222-2222-4222-8222-222222222222", 1) ∧
    checkUuidExists ⟨true, true, 3⟩ [⟨1, "A", some "xyz"⟩] "xyz" none = (true, some "A") ∧
    currentDocIdOf ⟨some "xyz", some "A", none⟩ = some "A" := by
  exact ⟨rfl, by decide, by decide⟩

/-- Claim C3 amended: on create, when uniqueness checking is enabled and the
incoming record supplies a non-empty value the uniqueness check reports
as already existing, and that value passes the format check (or
auto-generation is disabled, so the generation branch cannot fire
first): if the reported owner equals the incoming record's documentId
the value is kept; if the incoming write carries no documentId and an
owner was reported the value is kept; otherwise the value is replaced
through the bounded retry loop. -/
theorem c3_create_existing_value_cases (cfg : Config) (store : Store) (g : Nat → String)
    (n : Nat) (p : CreateParams) (v : String)
    (hval : cfg.validateUniqueness = true)
    (hv : p.value = some v) (hne : v ≠ "")
    (hfmt : validateUuid v = true ∨ cfg.autoGenerate = false)
    (hex : (checkUuidExists cfg store v none).1 = true) :
    ((∃ d, currentDocIdOf p = some d ∧ d ≠ "" ∧
        (checkUuidExists cfg store v none).2 = some d) →
      beforeCreate cfg store g n p = .ok (some v, n)) ∧
    (truthy (currentDocIdOf p) = false →
      truthy (checkUuidExists cfg store v none).2 = true →
      beforeCreate cfg store g n p = .ok (some v, n)) ∧
    ((∃ d, currentDocIdOf p = some d ∧ d ≠ "" ∧
        (checkUuidExists cfg store v none).2 ≠ some d) →
      beforeCreate cfg store g n p =
        (generateUniqueUuid cfg store g n).map (fun r => (some r.1, r.2))) := by
  have htrv : truthy (some v) = true := (truthy_some_iff v).mpr hne
  have hcond : ((!truthy (some v) || !validateUuid v) && cfg.autoGenerate) = false := by
    rw [htrv]
    rcases hfmt with h | h
    · simp [h]
    · simp [h]
  have hcond2 : (truthy (some v) && cfg.validateUniqueness) = true := by
    rw [htrv, hval]; rfl
  refine ⟨?_, ?_, ?_⟩
  · rintro ⟨d, hd, hdne, hown⟩
    have htrd : truthy (some d) = true := (truthy_some_iff d).mpr hdne
    unfold beforeCreate
    simp only [hv, Option.getD_some, hcond, Bool.false_eq_true, if_false, hcond2, if_true,
      hex, hd, hown, htrd, beq_self_eq_true, Bool.and_self]
  · intro hnocur hown
    unfold beforeCreate
    simp only [hv, Option.getD_some, hcond, Bool.false_eq_true, if_false, hcond2, if_true,
      hex, hnocur, hown, Bool.not_false, Bool.true_and, Bool.false_and]
  · rintro ⟨d, hd, hdne, hown⟩
    have htrd : truthy (some d) = true := (truthy_some_iff d).mpr hdne
    have h2 : ((checkUuidExists cfg store v none).2 == some d) = false := by
      simp [hown]
    unfold beforeCreate
    simp only [hv, Option.getD_some, hcond, Bool.false_eq_true, if_false, hcond2, if_true,
      hex, hd, hown, htrd, h2, Bool.true_and, Bool.not_true, Bool.false_and, Bool.and_false]
    cases hg : generateUniqueUuid cfg store g n with
    | ok r => cases r with | mk u2 n3 => simp [hg, Except.map]
    | error e => simp [hg, Except.map]

/-- Claim C3 witness: a concrete store where the supplied valid value exists
under a different documentId than the incoming one, so the hook replaces
it with the next fresh candidate from the stream. -/
theorem c3_create_existing_value_cases_witness :
    beforeCreate ⟨true, true, 3⟩ [⟨1, "B", some "11111111-1111-4111-8111-111111111111"⟩]
      (fun _ => "22222222-2222-4222-8222-222222222222") 0
      ⟨some "11111111-1111-4111-8111-111111111111", some "A", none⟩ =
      (generateUniqueUuid ⟨true, true, 3⟩
        [⟨1, "B", some "11111111-1111-4111-8111-111111111111"⟩]
        (fun _ => "22222222-2222-4222-8222-222222222222") 0).map
        (fun r => (some r.1, r.2)) :=
  (c3_create_existing_value_cases ⟨true, true, 3⟩
      [⟨1, "B", some "11111111-1111-4111-8111-111111111111"⟩]
      (fun _ => "22222222-2222-4222-8222-222222222222") 0
      ⟨some "11111111-1111-4111-8111-111111111111", some "A", none⟩
      "11111111-1111-4111-8111-111111111111"
      rfl rfl (by decide) (Or.inl (by decide)) (by decide)).2.2
    ⟨"A", by decide, by decide, by decide⟩

theorem getDocumentIdFromWhere_ne_empty (store : Store) (w : Option WhereClause) (d : String)
    (h : getDocumentIdFromWhere store w = some d) : d ≠ "" := by
  unfold getDocumentIdFromWhere at h
  cases w with
  | none => simp at h
  | some wc =>
    simp only [] at h
    split at h
    · rename_i htr
      rw [h] at htr
      exact (truthy_some_iff d).mp htr
    · split at h
      · split at h
        · rename_i e hfind
          split at h
          · simp at h
          · rename_i hne
            rw [Option.some.injEq] at h
            rw [← h]
            simpa using hne
        · simp at h
      · simp at h

theorem isUuidExists_excl_true (cfg : Config) (store : Store) (u d : String)
    (hval : cfg.validateUniqueness = true) (hd : d ≠ "")
    (hex : ∃ e ∈ store, e.value = some u ∧ e.documentId ≠ d) :
    isUuidExists cfg store u (some d) = true := by
  unfold isUuidExists checkUuidExists
  rw [hval]
  simp only [Bool.true_eq_false, if_false, show ¬(true = false) by simp]
  have htr : truthy (some d) = true := (truthy_some_iff d).mpr hd
  rw [htr]
  simp only [if_true, Option.getD_some]
  obtain ⟨e, he, hev, hed⟩ := hex
  cases hfind : store.find? (fun e => e.value == some u && e.documentId != d) with
  | some x => simp
  | none =>
    exfalso
    have := List.find?_eq_none.mp hfind e he
    simp [hev, hed] at this

/-- Claim C4 counterexample: the claim as stated is false.  The update supplies
a value that fails the format check, but its where clause carries neither
a documentId nor a row id, so getDocumentIdFromWhere resolves nothing and
the hook returns silently instead of rejecting the write. -/
theorem c4_counterexample :
    beforeUpdate ⟨true, true, 3⟩ [⟨1, "A", some "11111111-1111-4111-8111-111111111111"⟩]
      ⟨some (some "bad"), some ⟨none, none⟩⟩ = .ok () ∧
    validateUuid "bad" = false := by
  exact ⟨rfl, by decide⟩

/-- Claim C4 amended: on update, for a monitored field present in the update
data, provided the target's Record Identity is resolvable from the where
clause and the supplied value is non-empty: the write is rejected with a
ValidationError when the value fails the format check; it is rejected
with a ValidationError when uniqueness checking is enabled and a
different Record Identity already holds the value; and an update whose
data does not contain the field leaves the store unchanged. -/
theorem c4_update_guard (cfg : Config) (store : Store) (p : UpdateParams) (d : String)
    (hres : getDocumentIdFromWhere store p.whereClause = some d) :
    (∀ v, p.dataValue = some v → truthy v = true → validateUuid (v.getD "") = false →
      beforeUpdate cfg store p = .error (.invalidFormat (v.getD ""))) ∧
    (∀ v, p.dataValue = some v → truthy v = true → validateUuid (v.getD "") = true →
      cfg.validateUniqueness = true →
      (∃ e ∈ store, e.value = v ∧ e.documentId ≠ d) →
      beforeUpdate cfg store p = .error (.duplicateValue (v.getD ""))) ∧
    (p.dataValue = none → processUpdate cfg store p = .ok store) := by
  refine ⟨?_, ?_, ?_⟩
  · intro v hv htr hbad
    unfold beforeUpdate
    rw [hres, hv]
    simp only [htr, hbad, Bool.not_false, Bool.and_true, if_true]
  · intro v hv htr hfmt hval hex
    unfold beforeUpdate
    rw [hres, hv]
    have hd : d ≠ "" := getDocumentIdFromWhere_ne_empty store p.whereClause d hres
    obtain ⟨s, hs⟩ : ∃ s, v = some s := by
      cases v with
      | none => simp [truthy] at htr
      | some s => exact ⟨s, rfl⟩
    have hgd : v.getD "" = s := by rw [hs]; rfl
    have hexx : isUuidExists cfg store (v.getD "") (some d) = true := by
      rw [hgd]
      apply isUuidExists_excl_true cfg store s d hval hd
      obtain ⟨e, he, hev, hed⟩ := hex
      exact ⟨e, he, by rw [← hs]; exact hev, hed⟩
    simp only [htr, hfmt, Bool.not_true, Bool.and_false, Bool.false_eq_true, if_false,
      hval, Bool.and_true, if_true, hexx]
  · intro hnone
    unfold processUpdate beforeUpdate
    rw [hres, hnone]

/-- Claim C4 witness: with a resolvable documentId in the where clause, an
invalid supplied value is rejected with the format ValidationError. -/
theorem c4_update_guard_witness :
    beforeUpdate ⟨true, true, 3⟩ [⟨1, "A", some "11111111-1111-4111-8111-111111111111"⟩]
      ⟨some (some "bad"), some ⟨some "A", none⟩⟩ = .error (.invalidFormat "bad") :=
  (c4_update_guard ⟨true, true, 3⟩ [⟨1, "A", some "11111111-1111-4111-8111-111111111111"⟩]
      ⟨some (some "bad"), some ⟨some "A", none⟩⟩ "A" (by decide)).1
    (some "bad") rfl (by decide) (by decide)

theorem mem_flatMapL (f : α → List β) (l : List α) (b : β) :
    b ∈ flatMapL f l ↔ ∃ a ∈ l, b ∈ f a := by
  induction l with
  | nil => simp [flatMapL]
  | cons a rest ih => simp [flatMapL, ih]

theorem count_allDocIds_insertGroup (gs : List (String × List String)) (u d x : String) :
    (allDocIds (insertGroup gs u d)).count x =
      (allDocIds gs).count x + (if d = x then 1 else 0) := by
  induction gs with
  | nil =>
    simp [insertGroup, allDocIds, flatMapL, List.count_cons]
  | cons p rest ih =>
    obtain ⟨v, ds⟩ := p
    unfold insertGroup
    split
    · simp only [allDocIds, flatMapL] at *
      rw [List.count_append, List.count_append, List.count_append, List.count_singleton']
      by_cases hdx : d = x
      · simp [hdx]; omega
      · simp [hdx]
    · simp only [allDocIds, flatMapL] at *
      rw [List.count_append, List.count_append, ih]
      omega

theorem count_allDocIds_groupByValue_aux (entries : List Entry) (x : String) :
    ∀ gs, (allDocIds (entries.foldl (fun gs e =>
        match e.value with
        | none => gs
        | some u => if u == "" then gs else insertGroup gs u e.documentId) gs)).count x ≤
      (allDocIds gs).count x + (entries.map (fun e => e.documentId)).count x := by
  induction entries with
  | nil => intro gs; simp
  | cons e rest ih =>
    intro gs
    rw [List.foldl_cons, List.map_cons, List.count_cons]
    cases hev : e.value with
    | none =>
      simp only []
      have := ih gs
      split <;> omega
    | some u =>
      simp only []
      split
      · have := ih gs
        split <;> omega
      · have := ih (insertGroup gs u e.documentId)
        rw [count_allDocIds_insertGroup] at this
        by_cases hdx : e.documentId = x
        · rw [if_pos hdx] at this
          rw [if_pos (beq_iff_eq.mpr hdx)]
          omega
        · rw [if_neg hdx] at this
          rw [if_neg (by simp [hdx])]
          omega

theorem count_allDocIds_groupByValue (entries : List Entry) (x : String) :
    (allDocIds (groupByValue entries)).count x ≤
      (entries.map (fun e => e.documentId)).count x := by
  have := count_allDocIds_groupByValue_aux entries x []
  simpa [allDocIds, flatMapL, groupByValue] using this

theorem count_group_le_allDocIds (gs : List (String × List String))
    (p : String × List String) (hp : p ∈ gs) (x : String) :
    p.2.count x ≤ (allDocIds gs).count x := by
  induction gs with
  | nil => simp at hp
  | cons q rest ih =>
    rcases List.mem_cons.mp hp with h | h
    · rw [← h]
      simp only [allDocIds, flatMapL, List.count_append]
      omega
    · simp only [allDocIds, flatMapL, List.count_append]
      have := ih h
      simp only [allDocIds] at this
      omega

theorem group_nodup_of_nodup (entries : List Entry)
    (hnd : (entries.map (fun e => e.documentId)).Nodup) :
    ∀ p ∈ groupByValue entries, p.2.Nodup := by
  intro p hp
  rw [List.nodup_iff_count_le_one]
  intro x
  calc p.2.count x ≤ (allDocIds (groupByValue entries)).count x :=
        count_group_le_allDocIds _ p hp x
    _ ≤ (entries.map (fun e => e.documentId)).count x :=
        count_allDocIds_groupByValue entries x
    _ ≤ 1 := List.nodup_iff_count_le_one.mp hnd x

/-- Claim C8: every duplicate group reported by the diagnosis
(findDuplicatesForField, which also backs the diagnose endpoint) and by
checkMigrationStatus contains at least two documentIds, and — the
Document Service returning one row per document, so the scanned
documentIds are pairwise distinct — those documentIds are pairwise
distinct Record Identities; two rows sharing a Record Identity can
therefore never form or join a reported duplicate group. -/
theorem c8_duplicate_groups_two_distinct (entries : List Entry)
    (hnd : (entries.map (fun e => e.documentId)).Nodup) :
    (∀ grp ∈ findDuplicatesForField entries,
      2 ≤ grp.documentIds.length ∧ grp.documentIds.Nodup) ∧
    (∀ uid field u c ds,
      Issue.duplicate u c ds ∈ (fieldInfoOf ⟨uid, field, entries⟩).issues →
      2 ≤ ds.length ∧ ds.Nodup) := by
  constructor
  · intro grp hgrp
    obtain ⟨p, hp, hf⟩ := List.mem_filterMap.mp hgrp
    by_cases hlen : p.2.length > 1
    · rw [if_pos hlen] at hf
      rw [Option.some.injEq] at hf
      constructor
      · rw [← hf]
        show 2 ≤ p.2.length
        omega
      · rw [← hf]
        show p.2.Nodup
        exact group_nodup_of_nodup entries hnd p hp
    · rw [if_neg hlen] at hf
      simp at hf
  · intro uid field u c ds hmem
    simp only [fieldInfoOf] at hmem
    rcases List.mem_append.mp hmem with h | h
    · obtain ⟨e, he, hf⟩ := List.mem_filterMap.mp h
      cases hev : e.value with
      | none => rw [hev] at hf; simp at hf
      | some s =>
        rw [hev] at hf
        simp only [] at hf
        split at hf
        · simp at hf
        · split at hf
          · simp at hf
          · simp at hf
    · obtain ⟨p, hp, hf⟩ := List.mem_filterMap.mp h
      by_cases hlen : p.2.length > 1
      · rw [if_pos hlen] at hf
        rw [Option.some.injEq] at hf
        rw [Issue.duplicate.injEq] at hf
        obtain ⟨h1, h2, h3⟩ := hf
        rw [← h3]
        exact ⟨by omega, group_nodup_of_nodup entries hnd p hp⟩
      · rw [if_neg hlen] at hf
        simp at hf

/-- Claim C8 witness: a concrete two-row store with distinct documentIds
sharing one value. -/
theorem c8_duplicate_groups_two_distinct_witness :
    2 ≤ (DupGroup.mk "11111111-1111-4111-8111-111111111111" 2 ["A", "B"]).documentIds.length ∧
    (["A", "B"] : List String).Nodup :=
  (c8_duplicate_groups_two_distinct
      [⟨1, "A", some "11111111-1111-4111-8111-111111111111"⟩,
       ⟨2, "B", some "11111111-1111-4111-8111-111111111111"⟩]
      (by decide)).1
    ⟨"11111111-1111-4111-8111-111111111111", 2, ["A", "B"]⟩ (by decide)

theorem lookupValue_applyUpdate_ne (s : Store) (dz : String) (v : Option String)
    (dq : String) (h : dq ≠ dz) :
    lookupValue (applyUpdate s dz v) dq = lookupValue s dq := by
  induction s with
  | nil => rfl
  | cons e rest ih =>
    unfold applyUpdate at *
    rw [List.map_cons]
    by_cases hed : e.documentId = dz
    · have hq : (e.documentId == dq) = false := by
        rw [hed]
        exact beq_eq_false_iff_ne.mpr fun hqq => h hqq.symm
      rw [if_pos (beq_iff_eq.mpr hed)]
      unfold lookupValue
      rw [List.find?_cons, List.find?_cons]
      simp only [hq]
      exact ih
    · rw [if_neg (by simp [hed])]
      unfold lookupValue
      rw [List.find?_cons, List.find?_cons]
      by_cases hq : e.documentId = dq
      · simp only [beq_iff_eq.mpr hq]
      · simp only [beq_eq_false_iff_ne.mpr hq]
        exact ih

theorem svcFixMembers_changes_docIds (g : Nat → String) (dryRun : Bool) (u keep : String) :
    ∀ ids s n, ((svcFixMembers g dryRun u keep ids s n).changes.map (fun c => c.documentId)) = ids := by
  intro ids
  induction ids with
  | nil => intro s n; rfl
  | cons d rest ih =>
    intro s n
    unfold svcFixMembers
    simp only [List.map_cons, ih]

theorem svcFixMembers_changes_newUuid (g : Nat → String) (dryRun : Bool) (u keep : String) :
    ∀ ids s n, ∀ c ∈ (svcFixMembers g dryRun u keep ids s n).changes, ∃ k, c.newUuid = g k := by
  intro ids
  induction ids with
  | nil => intro s n c hc; simp [svcFixMembers] at hc
  | cons d rest ih =>
    intro s n c hc
    unfold svcFixMembers at hc
    simp only [List.mem_cons] at hc
    rcases hc with h | h
    · exact ⟨n, by rw [h]⟩
    · exact ih _ _ c h

theorem svcFixMembers_lookup_preserved (g : Nat → String) (u keep dq : String) :
    ∀ ids s n, dq ∉ ids →
      lookupValue (svcFixMembers g false u keep ids s n).store dq = lookupValue s dq := by
  intro ids
  induction ids with
  | nil => intro s n _; rfl
  | cons d rest ih =>
    intro s n hni
    have hne : dq ≠ d := fun h => hni (h ▸ List.mem_cons_self d rest)
    have hnr : dq ∉ rest := fun h => hni (List.mem_cons_of_mem d h)
    unfold svcFixMembers
    simp only [Bool.false_eq_true, if_false]
    rw [ih _ _ hnr]
    exact lookupValue_applyUpdate_ne s d (some (g n)) dq hne

theorem svcFixGroups_changes_docIds (g : Nat → String) (dryRun : Bool) :
    ∀ dups s n, ((svcFixGroups g dryRun dups s n).changes.map (fun c => c.documentId)) =
      flatMapL (fun grp => grp.documentIds.tail) dups := by
  intro dups
  induction dups with
  | nil => intro s n; rfl
  | cons grp rest ih =>
    intro s n
    unfold svcFixGroups
    cases hds : grp.documentIds with
    | nil => simp only [flatMapL, hds, List.tail_nil, List.nil_append, ih]
    | cons keep fixIds =>
      simp only [flatMapL, hds, List.tail_cons, List.map_append, svcFixMembers_changes_docIds, ih]

theorem svcFixGroups_changes_newUuid (g : Nat → String) (dryRun : Bool) :
    ∀ dups s n, ∀ c ∈ (svcFixGroups g dryRun dups s n).changes, ∃ k, c.newUuid = g k := by
  intro dups
  induction dups with
  | nil => intro s n c hc; simp [svcFixGroups] at hc
  | cons grp rest ih =>
    intro s n c hc
    unfold svcFixGroups at hc
    cases hds : grp.documentIds with
    | nil =>
      rw [hds] at hc
      exact ih _ _ c hc
    | cons keep fixIds =>
      rw [hds] at hc
      simp only [List.mem_append] at hc
      rcases hc with h | h
      · exact svcFixMembers_changes_newUuid g dryRun grp.uuid keep fixIds s n c h
      · exact ih _ _ c h

theorem svcFixGroups_lookup_preserved (g : Nat → String) (dq : String) :
    ∀ dups s n, dq ∉ flatMapL (fun grp => grp.documentIds.tail) dups →
      lookupValue (svcFixGroups g false dups s n).store dq = lookupValue s dq := by
  intro dups
  induction dups with
  | nil => intro s n _; rfl
  | cons grp rest ih =>
    intro s n hni
    unfold svcFixGroups
    cases hds : grp.documentIds with
    | nil =>
      apply ih
      rw [show flatMapL (fun grp => grp.documentIds.tail) (grp :: rest) =
        grp.documentIds.tail ++ flatMapL (fun grp => grp.documentIds.tail) rest from rfl, hds] at hni
      simpa using hni
    | cons keep fixIds =>
      rw [show flatMapL (fun grp => grp.documentIds.tail) (grp :: rest) =
        grp.documentIds.tail ++ flatMapL (fun grp => grp.documentIds.tail) rest from rfl, hds] at hni
      simp only [List.mem_append, not_or] at hni
      obtain ⟨h1, h2⟩ := hni
      simp only []
      rw [ih _ _ h2]
      exact svcFixMembers_lookup_preserved g grp.uuid keep dq fixIds s n h1

theorem count_flat_dups_le (store : Store) (x : String) :
    (flatMapL (fun grp => grp.documentIds) (findDuplicatesForField store)).count x ≤
      (allDocIds (groupByValue store)).count x := by
  unfold findDuplicatesForField
  generalize groupByValue store = gs
  induction gs with
  | nil => simp [flatMapL, allDocIds]
  | cons p rest ih =>
    rw [List.filterMap_cons]
    by_cases hlen : p.2.length > 1
    · rw [if_pos hlen]
      simp only [flatMapL, allDocIds, List.count_append]
      simp only [allDocIds] at ih
      omega
    · rw [if_neg hlen]
      simp only [flatMapL, allDocIds, List.count_append]
      simp only [allDocIds] at ih
      omega

theorem nodup_flat_dups (store : Store)
    (hnd : (store.map (fun e => e.documentId)).Nodup) :
    (flatMapL (fun grp => grp.documentIds) (findDuplicatesForField store)).Nodup := by
  rw [List.nodup_iff_count_le_one]
  intro x
  calc (flatMapL (fun grp => grp.documentIds) (findDuplicatesForField store)).count x ≤
      (allDocIds (groupByValue store)).count x := count_flat_dups_le store x
    _ ≤ (store.map (fun e => e.documentId)).count x := count_allDocIds_groupByValue store x
    _ ≤ 1 := List.nodup_iff_count_le_one.mp hnd x

theorem head_not_in_tails (dups : List DupGroup)
    (hnd : (flatMapL (fun grp => grp.documentIds) dups).Nodup) :
    ∀ grp ∈ dups, ∀ keep fixIds, grp.documentIds = keep :: fixIds →
      keep ∉ flatMapL (fun grp => grp.documentIds.tail) dups := by
  induction dups with
  | nil => intro grp h; simp at h
  | cons hd rest ih =>
    intro grp hgrp keep fixIds hds
    rw [show flatMapL (fun grp => grp.documentIds) (hd :: rest) =
      hd.documentIds ++ flatMapL (fun grp => grp.documentIds) rest from rfl,
      List.nodup_append] at hnd
    obtain ⟨nd1, nd2, disj⟩ := hnd
    rw [show flatMapL (fun grp => grp.documentIds.tail) (hd :: rest) =
      hd.documentIds.tail ++ flatMapL (fun grp => grp.documentIds.tail) rest from rfl]
    rcases List.mem_cons.mp hgrp with h | h
    · intro hmem
      rcases List.mem_append.mp hmem with hm | hm
      · rw [← h, hds] at hm nd1
        exact (List.nodup_cons.mp nd1).1 hm
      · have hk : keep ∈ hd.documentIds := by
          rw [← h, hds]; exact List.mem_cons_self keep fixIds
        have hk2 : keep ∈ flatMapL (fun g2 => g2.documentIds) rest := by
          rcases (mem_flatMapL _ _ _).mp hm with ⟨a, ha, hka⟩
          exact (mem_flatMapL _ _ _).mpr ⟨a, ha, List.mem_of_mem_tail hka⟩
        exact disj hk hk2
    · intro hmem
      rcases List.mem_append.mp hmem with hm | hm
      · have hk : keep ∈ flatMapL (fun g2 => g2.documentIds) rest :=
          (mem_flatMapL _ _ _).mpr ⟨grp, h, by rw [hds]; exact List.mem_cons_self keep fixIds⟩
        exact disj (List.mem_of_mem_tail hm) hk
      · exact ih nd2 grp h keep fixIds hds hm

/-- Claim C2 counterexample: the claim as stated is false — replacement values
are NOT checked for uniqueness against the datastore before assignment.
Rows A and B share one value; row C holds a second valid value w.  The
entropy stream produces w, and the fix assigns it to B without any
check, even though w is already held by C. -/
theorem c2_counterexample :
    (fixDuplicatesForField (fun _ => "22222222-2222-4222-8222-222222222222") false
      [⟨1, "A", some "11111111-1111-4111-8111-111111111111"⟩,
       ⟨2, "B", some "11111111-1111-4111-8111-111111111111"⟩,
       ⟨3, "C", some "22222222-2222-4222-8222-222222222222"⟩] 0).1.changes =
      [⟨"B", "11111111-1111-4111-8111-111111111111",
        "22222222-2222-4222-8222-222222222222", "A"⟩] ∧
    (⟨3, "C", some "22222222-2222-4222-8222-222222222222"⟩ : Entry) ∈
      [⟨1, "A", some "11111111-1111-4111-8111-111111111111"⟩,
       ⟨2, "B", some "11111111-1111-4111-8111-111111111111"⟩,
       (⟨3, "C", some "22222222-2222-4222-8222-222222222222"⟩ : Entry)] ∧
    (fixDuplicatesForField (fun _ => "22222222-2222-4222-8222-222222222222") false
      [⟨1, "A", some "11111111-1111-4111-8111-111111111111"⟩,
       ⟨2, "B", some "11111111-1111-4111-8111-111111111111"⟩,
       ⟨3, "C", some "22222222-2222-4222-8222-222222222222"⟩] 0).2.1 =
      [⟨1, "A", some "11111111-1111-4111-8111-111111111111"⟩,
       ⟨2, "B", some "22222222-2222-4222-8222-222222222222"⟩,
       ⟨3, "C", some "22222222-2222-4222-8222-222222222222"⟩] := by
  exact ⟨rfl, by decide, rfl⟩

/-- Claim C2 amended: within each duplicate group found by the duplicate
repair, the first-encountered documentId keeps its stored value
unchanged and never appears among the repaired changes, every other
member of the group is reassigned, and every assigned value is a fresh
draw from the entropy stream — but, as the counterexample shows, that
draw is NOT checked for uniqueness against the datastore before
assignment.  The scanned documentIds are pairwise distinct (one row per
document from the Document Service). -/
theorem c2_fix_keeps_first_reassigns_rest (store : Store) (g : Nat → String) (n : Nat)
    (hnd : (store.map (fun e => e.documentId)).Nodup) :
    ∀ grp ∈ findDuplicatesForField store, ∀ keep fixIds,
      grp.documentIds = keep :: fixIds →
      (keep ∉ (fixDuplicatesForField g false store n).1.changes.map (fun c => c.documentId)) ∧
      lookupValue (fixDuplicatesForField g false store n).2.1 keep = lookupValue store keep ∧
      (∀ d ∈ fixIds, d ∈ (fixDuplicatesForField g false store n).1.changes.map (fun c => c.documentId)) ∧
      (∀ c ∈ (fixDuplicatesForField g false store n).1.changes, ∃ k, c.newUuid = g k) := by
  intro grp hgrp keep fixIds hds
  have hch : (fixDuplicatesForField g false store n).1.changes =
      (svcFixGroups g false (findDuplicatesForField store) store n).changes := rfl
  have hst : (fixDuplicatesForField g false store n).2.1 =
      (svcFixGroups g false (findDuplicatesForField store) store n).store := rfl
  have hnotin := head_not_in_tails (findDuplicatesForField store)
    (nodup_flat_dups store hnd) grp hgrp keep fixIds hds
  refine ⟨?_, ?_, ?_, ?_⟩
  · rw [hch, svcFixGroups_changes_docIds]
    exact hnotin
  · rw [hst]
    exact svcFixGroups_lookup_preserved g keep (findDuplicatesForField store) store n hnotin
  · intro d hd
    rw [hch, svcFixGroups_changes_docIds]
    refine (mem_flatMapL _ _ _).mpr ⟨grp, hgrp, ?_⟩
    rw [hds]
    exact hd
  · intro c hc
    rw [hch] at hc
    exact svcFixGroups_changes_newUuid g false (findDuplicatesForField store) store n c hc

/-- Claim C2 witness: the two-member duplicate group of a concrete store. -/
theorem c2_fix_keeps_first_reassigns_rest_witness :
    ("A" ∉ (fixDuplicatesForField (fun _ => "33333333-3333-4333-8333-333333333333") false
      [⟨1, "A", some "11111111-1111-4111-8111-111111111111"⟩,
       ⟨2, "B", some "11111111-1111-4111-8111-111111111111"⟩] 0).1.changes.map
        (fun c => c.documentId)) ∧
    lookupValue (fixDuplicatesForField (fun _ => "33333333-3333-4333-8333-333333333333") false
      [⟨1, "A", some "11111111-1111-4111-8111-111111111111"⟩,
       ⟨2, "B", some "11111111-1111-4111-8111-111111111111"⟩] 0).2.1 "A" =
      lookupValue [⟨1, "A", some "11111111-1111-4111-8111-111111111111"⟩,
       ⟨2, "B", some "11111111-1111-4111-8111-111111111111"⟩] "A" ∧
    (∀ d ∈ ["B"], d ∈ (fixDuplicatesForField (fun _ => "33333333-3333-4333-8333-333333333333") false
      [⟨1, "A", some "11111111-1111-4111-8111-111111111111"⟩,
       ⟨2, "B", some "11111111-1111-4111-8111-111111111111"⟩] 0).1.changes.map
        (fun c => c.documentId)) ∧
    (∀ c ∈ (fixDuplicatesForField (fun _ => "33333333-3333-4333-8333-333333333333") false
      [⟨1, "A", some "11111111-1111-4111-8111-111111111111"⟩,
       ⟨2, "B", some "11111111-1111-4111-8111-111111111111"⟩] 0).1.changes,
      ∃ k, c.newUuid = (fun _ : Nat => "33333333-3333-4333-8333-333333333333") k) :=
  c2_fix_keeps_first_reassigns_rest
    [⟨1, "A", some "11111111-1111-4111-8111-111111111111"⟩,
     ⟨2, "B", some "11111111-1111-4111-8111-111111111111"⟩]
    (fun _ => "33333333-3333-4333-8333-333333333333") 0 (by decide)
    ⟨"11111111-1111-4111-8111-111111111111", 2, ["A", "B"]⟩ (by decide)
    "A" ["B"] rfl

theorem uniqueValues_cons (store : Store) (rid : Nat) (d : String) (v : Option String)
    (hu : UniqueValues store)
    (hfresh : truthy v = true → ∀ e ∈ store, e.documentId ≠ d → e.value ≠ v) :
    UniqueValues (⟨rid, d, v⟩ :: store) := by
  intro e1 h1 e2 h2 hne htr
  rcases List.mem_cons.mp h1 with he1 | he1 <;> rcases List.mem_cons.mp h2 with he2 | he2
  · rw [he1, he2] at hne
    exact absurd rfl hne
  · rw [he1] at htr hne ⊢
    have hfr := hfresh htr e2 he2 (fun h => hne h.symm)
    exact fun h => hfr h.symm
  · rw [he2] at hne ⊢
    intro hcontra
    have htrv : truthy v = true := by rw [hcontra] at htr; exact htr
    exact hfresh htrv e1 he1 hne hcontra
  · exact hu e1 he1 e2 he2 hne htr

theorem uniqueValues_applyUpdate (store : Store) (d : String) (v : Option String)
    (hu : UniqueValues store)
    (hfresh : truthy v = true → ∀ e ∈ store, e.documentId ≠ d → e.value ≠ v) :
    UniqueValues (applyUpdate store d v) := by
  intro e1 h1 e2 h2 hne htr
  unfold applyUpdate at h1 h2
  obtain ⟨f1, hf1, hf1e⟩ := List.mem_map.mp h1
  obtain ⟨f2, hf2, hf2e⟩ := List.mem_map.mp h2
  by_cases hd1 : f1.documentId = d <;> by_cases hd2 : f2.documentId = d
  · rw [if_pos (beq_iff_eq.mpr hd1)] at hf1e
    rw [if_pos (beq_iff_eq.mpr hd2)] at hf2e
    rw [← hf1e, ← hf2e] at hne
    exact absurd (hd1.trans hd2.symm) hne
  · rw [if_pos (beq_iff_eq.mpr hd1)] at hf1e
    rw [if_neg (by simp [hd2])] at hf2e
    rw [← hf1e] at htr ⊢
    rw [← hf2e]
    have hfr := hfresh htr f2 hf2 hd2
    exact fun h => hfr h.symm
  · rw [if_neg (by simp [hd1])] at hf1e
    rw [if_pos (beq_iff_eq.mpr hd2)] at hf2e
    rw [← hf1e] at htr ⊢
    rw [← hf2e]
    intro hcontra
    have htrv : truthy v = true := by rw [hcontra] at htr; exact htr
    exact hfresh htrv f1 hf1 hd1 hcontra
  · rw [if_neg (by simp [hd1])] at hf1e
    rw [if_neg (by simp [hd2])] at hf2e
    rw [← hf1e] at htr hne ⊢
    rw [← hf2e] at hne ⊢
    exact hu f1 hf1 f2 hf2 hne htr

theorem checkUuidExists_none_unfold (cfg : Config) (store : Store) (u : String)
    (hval : cfg.validateUniqueness = true) :
    checkUuidExists cfg store u none =
      (match store.find? (fun e => e.value == some u) with
       | some e => (true, if e.documentId == "" then none else some e.documentId)
       | none => (false, none)) := by
  unfold checkUuidExists
  rw [hval]
  simp [truthy]

theorem checkUuidExists_components (cfg : Config) (store : Store) (u d : String)
    (hval : cfg.validateUniqueness = true)
    (h1 : (checkUuidExists cfg store u none).1 = true)
    (h2 : (checkUuidExists cfg store u none).2 = some d) :
    ∃ e0 ∈ store, e0.value = some u ∧ e0.documentId = d := by
  rw [checkUuidExists_none_unfold cfg store u hval] at h1 h2
  cases hfind : store.find? (fun e => e.value == some u) with
  | none => rw [hfind] at h1; simp at h1
  | some e0 =>
    rw [hfind] at h2
    simp only [] at h2
    have hmem := List.mem_of_find?_eq_some hfind
    have hpred := List.find?_some hfind
    rw [beq_iff_eq] at hpred
    by_cases he : e0.documentId = ""
    · rw [if_pos (beq_iff_eq.mpr he)] at h2
      simp at h2
    · rw [if_neg (by simp [he])] at h2
      rw [Option.some.injEq] at h2
      exact ⟨e0, hmem, hpred, h2⟩

theorem checkUuidExists_fst_false (cfg : Config) (store : Store) (u : String)
    (hval : cfg.validateUniqueness = true)
    (h : (checkUuidExists cfg store u none).1 = false) :
    ∀ e ∈ store, e.value ≠ some u :=
  isUuidExists_none_false cfg store u hval h

theorem isUuidExists_excl_unfold (cfg : Config) (store : Store) (u d : String)
    (hval : cfg.validateUniqueness = true) (hd : d ≠ "") :
    isUuidExists cfg store u (some d) =
      (store.find? (fun e => e.value == some u && e.documentId != d)).isSome := by
  unfold isUuidExists checkUuidExists
  rw [hval]
  simp only [Bool.true_eq_false, if_false, show ¬(true = false) by simp,
    truthy, Option.getD_some, show (d != "") = true by simpa using hd, if_true]
  cases store.find? (fun e => e.value == some u && e.documentId != d) <;> simp

theorem isUuidExists_excl_false (cfg : Config) (store : Store) (u d : String)
    (hval : cfg.validateUniqueness = true) (hd : d ≠ "")
    (h : isUuidExists cfg store u (some d) = false) :
    ∀ e ∈ store, e.documentId ≠ d → e.value ≠ some u := by
  rw [isUuidExists_excl_unfold cfg store u d hval hd] at h
  intro e he hdq hv
  cases hfind : store.find? (fun e => e.value == some u && e.documentId != d) with
  | some x => rw [hfind] at h; simp at h
  | none =>
    have := List.find?_eq_none.mp hfind e he
    rw [hv] at this
    simp [hdq] at this

theorem beforeCreate_ok_fresh (cfg : Config) (store : Store) (g : Nat → String) (n : Nat)
    (p : CreateParams) (v : Option String) (n2 : Nat) (d : String)
    (hval : cfg.validateUniqueness = true)
    (hu : UniqueValues store)
    (hcur : currentDocIdOf p = some d) (hdne : d ≠ "")
    (hok : beforeCreate cfg store g n p = .ok (v, n2)) :
    truthy v = true → ∀ e ∈ store, e.documentId ≠ d → e.value ≠ v := by
  have hgen : ∀ m2, (match generateUniqueUuid cfg store g n with
      | Except.ok (u, k) => Except.ok (some u, k)
      | Except.error e => Except.error e) = Except.ok (v, m2) →
      truthy v = true → ∀ e ∈ store, e.documentId ≠ d → e.value ≠ v := by
    intro m2 hg htr e he hed hcontra
    cases hg2 : generateUniqueUuid cfg store g n with
    | error er => rw [hg2] at hg; simp at hg
    | ok r =>
      rw [hg2] at hg
      obtain ⟨u2, k2⟩ := r
      simp only [Except.ok.injEq, Prod.mk.injEq] at hg
      have hfresh := genLoop_ok_fresh cfg store g hval cfg.maxRetryAttempts n u2 k2 hg2
      have hni := isUuidExists_none_false cfg store u2 hval hfresh e he
      rw [← hg.1] at hcontra
      exact hni hcontra
  unfold beforeCreate at hok
  simp only [hcur] at hok
  split at hok
  · exact hgen n2 hok
  · split at hok
    · rename_i hc2
      rw [Bool.and_eq_true] at hc2
      split at hok
      · rename_i hres1
        split at hok
        · rename_i hkeep1
          rw [Bool.and_eq_true, beq_iff_eq] at hkeep1
          obtain ⟨-, hres2⟩ := hkeep1
          rw [Except.ok.injEq, Prod.mk.injEq] at hok
          obtain ⟨hvv, -⟩ := hok
          obtain ⟨cv, hcv⟩ : ∃ cv, p.value = some cv := by
            cases hpv : p.value with
            | none => rw [hpv] at hc2; simp [truthy] at hc2
            | some s => exact ⟨s, rfl⟩
          have hgd : p.value.getD "" = cv := by rw [hcv]; rfl
          rw [hgd] at hres1 hres2
          obtain ⟨e0, he0, he0v, he0d⟩ :=
            checkUuidExists_components cfg store cv d hval hres1 hres2
          intro htr e he hed hcontra
          have htre : truthy e.value = true := by
            rw [← hvv] at htr
            rw [hcontra, ← hvv]
            exact htr
          have hne0 : e.documentId ≠ e0.documentId := by rw [he0d]; exact hed
          have := hu e he e0 he0 hne0 htre
          rw [hcontra, ← hvv, hcv, he0v] at this
          exact this rfl
        · split at hok
          · rename_i hkeep2
            rw [Bool.and_eq_true] at hkeep2
            obtain ⟨hnc, -⟩ := hkeep2
            have htd : truthy (some d) = true := (truthy_some_iff d).mpr hdne
            rw [htd] at hnc
            simp at hnc
          · exact hgen n2 hok
      · rename_i hres1
        rw [Except.ok.injEq, Prod.mk.injEq] at hok
        obtain ⟨hvv, -⟩ := hok
        obtain ⟨cv, hcv⟩ : ∃ cv, p.value = some cv := by
          cases hpv : p.value with
          | none => rw [hpv] at hc2; simp [truthy] at hc2
          | some s => exact ⟨s, rfl⟩
        have hgd : p.value.getD "" = cv := by rw [hcv]; rfl
        rw [hgd] at hres1
        have hni := checkUuidExists_fst_false cfg store cv hval
          (by rw [Bool.not_eq_true] at hres1; exact hres1)
        intro htr e he hed hcontra
        exact hni e he (by rw [hcontra, ← hvv]; exact hcv)
    · rename_i hc2
      rw [Except.ok.injEq, Prod.mk.injEq] at hok
      obtain ⟨hvv, -⟩ := hok
      intro htr
      rw [← hvv] at htr
      rw [hval] at hc2
      simp only [Bool.and_true] at hc2
      rw [Bool.not_eq_true] at hc2
      rw [hc2] at htr
      simp at htr

theorem beforeUpdate_ok_fresh (cfg : Config) (store : Store) (p : UpdateParams)
    (d : String) (v : Option String)
    (hval : cfg.validateUniqueness = true)
    (hres : getDocumentIdFromWhere store p.whereClause = some d)
    (hv : p.dataValue = some v)
    (hok : beforeUpdate cfg store p = .ok ()) :
    truthy v = true → ∀ e ∈ store, e.documentId ≠ d → e.value ≠ v := by
  intro htr e he hed hcontra
  unfold beforeUpdate at hok
  rw [hres, hv] at hok
  simp only [] at hok
  obtain ⟨s, hs⟩ : ∃ s, v = some s := by
    cases hvv : v with
    | none => rw [hvv] at htr; simp [truthy] at htr
    | some s => exact ⟨s, rfl⟩
  have hgd : v.getD "" = s := by rw [hs]; rfl
  split at hok
  · simp at hok
  · split at hok
    · split at hok
      · simp at hok
      · rename_i hexf
        rw [Bool.not_eq_true] at hexf
        have hd : d ≠ "" := getDocumentIdFromWhere_ne_empty store p.whereClause d hres
        rw [hgd] at hexf
        have := isUuidExists_excl_false cfg store s d hval hd hexf e he hed
        rw [hcontra, hs] at this
        exact this rfl
    · rename_i hcond
      rw [htr, hval] at hcond
      simp at hcond

/-- Claim C1 counterexample: the claim as stated is false for the reconcile
path.  Starting from a store where rows A and B share one value and row
C holds a second value, a successful live duplicate fix (the engine
behind the autofix endpoint and the duplicate branch of runMigration)
assigns B the entropy stream's next value — which equals C's value,
since no uniqueness check is made — leaving two distinct Record
Identities (B and C) with the same value. -/
theorem c1_counterexample :
    ¬ UniqueValues ((fixDuplicatesForField (fun _ => "22222222-2222-4222-8222-222222222222") false
      [⟨1, "A", some "11111111-1111-4111-8111-111111111111"⟩,
       ⟨2, "B", some "11111111-1111-4111-8111-111111111111"⟩,
       ⟨3, "C", some "22222222-2222-4222-8222-222222222222"⟩] 0).2.1) := by
  decide

/-- Claim C1 amended: with uniqueness checking enabled, the write-time hooks do
preserve the invariant — a successful create whose incoming write
carries the record's identity (and is inserted under it) and any
successful update keep all distinct Record Identities on distinct truthy
values.  The reconcile fix does not guarantee this, because repaired
values are drawn from the generator without a uniqueness check (see the
counterexample). -/
theorem c1_uniqueness_create_update (cfg : Config) (hval : cfg.validateUniqueness = true) :
    (∀ store g n p d rid store2,
      UniqueValues store →
      currentDocIdOf p = some d → d ≠ "" →
      processCreate cfg store g n p d rid = .ok store2 →
      UniqueValues store2) ∧
    (∀ store p store2,
      UniqueValues store →
      processUpdate cfg store p = .ok store2 →
      UniqueValues store2) := by
  constructor
  · intro store g n p d rid store2 hu hcur hdne hok
    unfold processCreate at hok
    cases hbc : beforeCreate cfg store g n p with
    | error e => rw [hbc] at hok; simp at hok
    | ok r =>
      rw [hbc] at hok
      obtain ⟨v, m2⟩ := r
      simp only [Except.ok.injEq] at hok
      rw [← hok]
      exact uniqueValues_cons store rid d v hu
        (beforeCreate_ok_fresh cfg store g n p v m2 d hval hu hcur hdne hbc)
  · intro store p store2 hu hok
    unfold processUpdate at hok
    cases hbu : beforeUpdate cfg store p with
    | error e => rw [hbu] at hok; simp at hok
    | ok r =>
      rw [hbu] at hok
      cases hres : getDocumentIdFromWhere store p.whereClause with
      | none =>
        rw [hres] at hok
        simp only [Except.ok.injEq] at hok
        rw [← hok]
        exact hu
      | some d =>
        rw [hres] at hok
        cases hdv : p.dataValue with
        | none =>
          rw [hdv] at hok
          simp only [Except.ok.injEq] at hok
          rw [← hok]
          exact hu
        | some v =>
          rw [hdv] at hok
          simp only [Except.ok.injEq] at hok
          rw [← hok]
          exact uniqueValues_applyUpdate store d v hu
            (beforeUpdate_ok_fresh cfg store p d v hval hres hdv hbu)

/-- Claim C1 witness: a concrete publish-style create (same documentId keeps
its value) and a concrete value-changing update, both preserving the
invariant. -/
theorem c1_uniqueness_create_update_witness :
    UniqueValues [⟨2, "A", some "11111111-1111-4111-8111-111111111111"⟩,
      ⟨1, "A", some "11111111-1111-4111-8111-111111111111"⟩] ∧
    UniqueValues (applyUpdate [⟨1, "A", some "11111111-1111-4111-8111-111111111111"⟩]
      "A" (some "22222222-2222-4222-8222-222222222222")) :=
  ⟨(c1_uniqueness_create_update ⟨true, true, 3⟩ rfl).1
      [⟨1, "A", some "11111111-1111-4111-8111-111111111111"⟩]
      (fun _ => "33333333-3333-4333-8333-333333333333") 0
      ⟨some "11111111-1111-4111-8111-111111111111", some "A", none⟩ "A" 2
      [⟨2, "A", some "11111111-1111-4111-8111-111111111111"⟩,
       ⟨1, "A", some "11111111-1111-4111-8111-111111111111"⟩]
      (by decide) (by decide) (by decide) rfl,
    (c1_uniqueness_create_update ⟨true, true, 3⟩ rfl).2
      [⟨1, "A", some "11111111-1111-4111-8111-111111111111"⟩]
      ⟨some (some "22222222-2222-4222-8222-222222222222"), some ⟨some "A", none⟩⟩
      (applyUpdate [⟨1, "A", some "11111111-1111-4111-8111-111111111111"⟩]
        "A" (some "22222222-2222-4222-8222-222222222222"))
      (by decide) rfl⟩

theorem tryUpdate_nil (w : World) (uid field docId v : String) :
    tryUpdate [] w uid field docId v = .ok (updateField w uid field docId v) := by
  simp [tryUpdate]

theorem emptyFixLoop_dry_world (g : Nat → String) (failing : List String)
    (uid field : String) :
    ∀ es w n, (emptyFixLoop g failing true uid field es w n).world = w := by
  intro es
  induction es with
  | nil => intro w n; rfl
  | cons e rest ih =>
    intro w n
    unfold emptyFixLoop
    simp only [if_true]
    exact ih w (n + 1)

theorem invalidFixLoop_dry_world (g : Nat → String) (failing : List String)
    (uid field : String) :
    ∀ issues w n, (invalidFixLoop g failing true uid field issues w n).world = w := by
  intro issues
  induction issues with
  | nil => intro w n; rfl
  | cons issue rest ih =>
    intro w n
    unfold invalidFixLoop
    simp only [if_true]
    exact ih w (n + 1)

theorem dupFixMembers_dry_world (g : Nat → String) (failing : List String)
    (uid field groupUuid keep : String) :
    ∀ ids w n, (dupFixMembers g failing true uid field groupUuid keep ids w n).world = w := by
  intro ids
  induction ids with
  | nil => intro w n; rfl
  | cons dcid rest ih =>
    intro w n
    unfold dupFixMembers
    simp only [if_true]
    exact ih w (n + 1)

theorem dupFixLoop_dry_world (g : Nat → String) (failing : List String)
    (uid field : String) :
    ∀ issues w n, (dupFixLoop g failing true uid field issues w n).world = w := by
  intro issues
  induction issues with
  | nil => intro w n; rfl
  | cons issue rest ih =>
    intro w n
    unfold dupFixLoop
    cases hds : issue.2 with
    | nil => exact ih w n
    | cons keep fixIds =>
      simp only []
      rw [ih, dupFixMembers_dry_world]

theorem runFieldStep_dry_world (g : Nat → String) (failing : List String)
    (fe fi fd : Bool) (info : FieldInfo) (w : World) (n : Nat) :
    (runFieldStep g failing ⟨true, fe, fi, fd⟩ info w n).world = w := by
  unfold runFieldStep
  simp only []
  split <;> split <;> split <;>
    simp only [dupFixLoop_dry_world, invalidFixLoop_dry_world, emptyFixLoop_dry_world]

theorem runMigrationLoop_dry_world (g : Nat → String) (failing : List String)
    (fe fi fd : Bool) :
    ∀ infos w n, (runMigrationLoop g failing ⟨true, fe, fi, fd⟩ infos w n).world = w := by
  intro infos
  induction infos with
  | nil => intro w n; rfl
  | cons info rest ih =>
    intro w n
    unfold runMigrationLoop
    simp only []
    rw [runFieldStep_dry_world, ih]

theorem emptyFixLoop_log_spec (g : Nat → String) (uid field : String) :
    ∀ es (b : Bool) w n,
      (emptyFixLoop g [] b uid field es w n).log = emptyLogSpec g uid field es n := by
  intro es
  induction es with
  | nil => intro b w n; rfl
  | cons e rest ih =>
    intro b w n
    unfold emptyFixLoop emptyLogSpec
    cases b with
    | true =>
      simp only [if_true]
      rw [← ih true w (n + 1)]
      rfl
    | false =>
      simp only [Bool.false_eq_true, if_false, tryUpdate_nil]
      rw [← ih false (updateField w uid field e.documentId (g n)) (n + 1)]
      rfl

theorem invalidFixLoop_log_spec (g : Nat → String) (uid field : String) :
    ∀ issues (b : Bool) w n,
      (invalidFixLoop g [] b uid field issues w n).log = invalidLogSpec g uid field issues n := by
  intro issues
  induction issues with
  | nil => intro b w n; rfl
  | cons issue rest ih =>
    intro b w n
    unfold invalidFixLoop invalidLogSpec
    cases b with
    | true =>
      simp only [if_true]
      rw [← ih true w (n + 1)]
      rfl
    | false =>
      simp only [Bool.false_eq_true, if_false, tryUpdate_nil]
      rw [← ih false (updateField w uid field issue.1 (g n)) (n + 1)]
      rfl

theorem dupFixMembers_log_spec (g : Nat → String) (uid field groupUuid keep : String) :
    ∀ ids (b : Bool) w n,
      (dupFixMembers g [] b uid field groupUuid keep ids w n).log =
        dupMembersLogSpec g uid field groupUuid keep ids n := by
  intro ids
  induction ids with
  | nil => intro b w n; rfl
  | cons dcid rest ih =>
    intro b w n
    unfold dupFixMembers dupMembersLogSpec
    cases b with
    | true =>
      simp only [if_true]
      rw [← ih true w (n + 1)]
      rfl
    | false =>
      simp only [Bool.false_eq_true, if_false, tryUpdate_nil]
      rw [← ih false (updateField w uid field dcid (g n)) (n + 1)]
      rfl

theorem dupFixLoop_log_spec (g : Nat → String) (uid field : String) :
    ∀ issues (b : Bool) w n,
      (dupFixLoop g [] b uid field issues w n).log = dupLogSpec g uid field issues n := by
  intro issues
  induction issues with
  | nil => intro b w n; rfl
  | cons issue rest ih =>
    intro b w n
    unfold dupFixLoop dupLogSpec
    cases hds : issue.2 with
    | nil => exact ih b w n
    | cons keep fixIds =>
      simp only []
      have h1 := dupFixMembers_log_spec g uid field issue.1 keep fixIds b w n
      have h2 := ih b (dupFixMembers g [] b uid field issue.1 keep fixIds w n).world
        (dupFixMembers g [] b uid field issue.1 keep fixIds w n).genPos
      have hgen : (dupFixMembers g [] b uid field issue.1 keep fixIds w n).genPos =
          (dupMembersLogSpec g uid field issue.1 keep fixIds n).genPos :=
        congrArg LogOut.genPos h1
      rw [← hgen, ← h2, ← h1]
      rfl

theorem guarded_empty_log (g : Nat → String) (uid field : String) (es : List Entry)
    (cond b : Bool) (w : World) (n : Nat) :
    ((if cond then emptyFixLoop g [] b uid field es w n else ⟨[], 0, [], w, n⟩) : StepOut).log =
      (if cond then emptyLogSpec g uid field es n else ⟨[], 0, [], n⟩) := by
  cases cond
  · rfl
  · simp only [if_true]
    exact emptyFixLoop_log_spec g uid field es b w n

theorem guarded_invalid_log (g : Nat → String) (uid field : String)
    (issues : List (String × String)) (cond b : Bool) (w : World) (n : Nat) :
    ((if cond then invalidFixLoop g [] b uid field issues w n else ⟨[], 0, [], w, n⟩) : StepOut).log =
      (if cond then invalidLogSpec g uid field issues n else ⟨[], 0, [], n⟩) := by
  cases cond
  · rfl
  · simp only [if_true]
    exact invalidFixLoop_log_spec g uid field issues b w n

theorem guarded_dup_log (g : Nat → String) (uid field : String)
    (issues : List (String × List String)) (cond b : Bool) (w : World) (n : Nat) :
    ((if cond then dupFixLoop g [] b uid field issues w n else ⟨[], 0, [], w, n⟩) : StepOut).log =
      (if cond then dupLogSpec g uid field issues n else ⟨[], 0, [], n⟩) := by
  cases cond
  · rfl
  · simp only [if_true]
    exact dupFixLoop_log_spec g uid field issues b w n

theorem runFieldStep_log_spec (g : Nat → String) (b fe fi fd : Bool) (info : FieldInfo)
    (w : World) (n : Nat) :
    (runFieldStep g [] ⟨b, fe, fi, fd⟩ info w n).flog =
      fieldLogSpec g fe fi fd info (emptyEntriesOf w info.uid info.field) n := by
  unfold runFieldStep fieldLogSpec
  simp only []
  have hgen1 : ((if (fe && decide (0 < info.emptyCount)) = true then
      emptyFixLoop g [] b info.uid info.field (emptyEntriesOf w info.uid info.field) w n
      else ⟨[], 0, [], w, n⟩) : StepOut).genPos = ((if (fe && decide (0 < info.emptyCount)) = true then
      emptyLogSpec g info.uid info.field (emptyEntriesOf w info.uid info.field) n
      else ⟨[], 0, [], n⟩) : LogOut).genPos :=
    congrArg LogOut.genPos (guarded_empty_log g info.uid info.field
      (emptyEntriesOf w info.uid info.field) (fe && decide (0 < info.emptyCount)) b w n)
  rw [← hgen1]
  have hgen2 : ((if fi = true then
      invalidFixLoop g [] b info.uid info.field (invalidsOf info) ((if (fe && decide (0 < info.emptyCount)) = true then
      emptyFixLoop g [] b info.uid info.field (emptyEntriesOf w info.uid info.field) w n
      else ⟨[], 0, [], w, n⟩) : StepOut).world ((if (fe && decide (0 < info.emptyCount)) = true then
      emptyFixLoop g [] b info.uid info.field (emptyEntriesOf w info.uid info.field) w n
      else ⟨[], 0, [], w, n⟩) : StepOut).genPos
      else ⟨[], 0, [], ((if (fe && decide (0 < info.emptyCount)) = true then
      emptyFixLoop g [] b info.uid info.field (emptyEntriesOf w info.uid info.field) w n
      else ⟨[], 0, [], w, n⟩) : StepOut).world, ((if (fe && decide (0 < info.emptyCount)) = true then
      emptyFixLoop g [] b info.uid info.field (emptyEntriesOf w info.uid info.field) w n
      else ⟨[], 0, [], w, n⟩) : StepOut).genPos⟩) : StepOut).genPos = ((if fi = true then
      invalidLogSpec g info.uid info.field (invalidsOf info) ((if (fe && decide (0 < info.emptyCount)) = true then
      emptyFixLoop g [] b info.uid info.field (emptyEntriesOf w info.uid info.field) w n
      else ⟨[], 0, [], w, n⟩) : StepOut).genPos
      else ⟨[], 0, [], ((if (fe && decide (0 < info.emptyCount)) = true then
      emptyFixLoop g [] b info.uid info.field (emptyEntriesOf w info.uid info.field) w n
      else ⟨[], 0, [], w, n⟩) : StepOut).genPos⟩) : LogOut).genPos :=
    congrArg LogOut.genPos (guarded_invalid_log g info.uid info.field (invalidsOf info) fi b
      ((if (fe && decide (0 < info.emptyCount)) = true then
      emptyFixLoop g [] b info.uid info.field (emptyEntriesOf w info.uid info.field) w n
      else ⟨[], 0, [], w, n⟩) : StepOut).world ((if (fe && decide (0 < info.emptyCount)) = true then
      emptyFixLoop g [] b info.uid info.field (emptyEntriesOf w info.uid info.field) w n
      else ⟨[], 0, [], w, n⟩) : StepOut).genPos)
  rw [← hgen2]
  rw [← guarded_dup_log g info.uid info.field (dupsOf info) fd b ((if fi = true then
      invalidFixLoop g [] b info.uid info.field (invalidsOf info) ((if (fe && decide (0 < info.emptyCount)) = true then
      emptyFixLoop g [] b info.uid info.field (emptyEntriesOf w info.uid info.field) w n
      else ⟨[], 0, [], w, n⟩) : StepOut).world ((if (fe && decide (0 < info.emptyCount)) = true then
      emptyFixLoop g [] b info.uid info.field (emptyEntriesOf w info.uid info.field) w n
      else ⟨[], 0, [], w, n⟩) : StepOut).genPos
      else ⟨[], 0, [], ((if (fe && decide (0 < info.emptyCount)) = true then
      emptyFixLoop g [] b info.uid info.field (emptyEntriesOf w info.uid info.field) w n
      else ⟨[], 0, [], w, n⟩) : StepOut).world, ((if (fe && decide (0 < info.emptyCount)) = true then
      emptyFixLoop g [] b info.uid info.field (emptyEntriesOf w info.uid info.field) w n
      else ⟨[], 0, [], w, n⟩) : StepOut).genPos⟩) : StepOut).world ((if fi = true then
      invalidFixLoop g [] b info.uid info.field (invalidsOf info) ((if (fe && decide (0 < info.emptyCount)) = true then
      emptyFixLoop g [] b info.uid info.field (emptyEntriesOf w info.uid info.field) w n
      else ⟨[], 0, [], w, n⟩) : StepOut).world ((if (fe && decide (0 < info.emptyCount)) = true then
      emptyFixLoop g [] b info.uid info.field (emptyEntriesOf w info.uid info.field) w n
      else ⟨[], 0, [], w, n⟩) : StepOut).genPos
      else ⟨[], 0, [], ((if (fe && decide (0 < info.emptyCount)) = true then
      emptyFixLoop g [] b info.uid info.field (emptyEntriesOf w info.uid info.field) w n
      else ⟨[], 0, [], w, n⟩) : StepOut).world, ((if (fe && decide (0 < info.emptyCount)) = true then
      emptyFixLoop g [] b info.uid info.field (emptyEntriesOf w info.uid info.field) w n
      else ⟨[], 0, [], w, n⟩) : StepOut).genPos⟩) : StepOut).genPos]
  rw [← guarded_invalid_log g info.uid info.field (invalidsOf info) fi b ((if (fe && decide (0 < info.emptyCount)) = true then
      emptyFixLoop g [] b info.uid info.field (emptyEntriesOf w info.uid info.field) w n
      else ⟨[], 0, [], w, n⟩) : StepOut).world ((if (fe && decide (0 < info.emptyCount)) = true then
      emptyFixLoop g [] b info.uid info.field (emptyEntriesOf w info.uid info.field) w n
      else ⟨[], 0, [], w, n⟩) : StepOut).genPos]
  rw [← guarded_empty_log g info.uid info.field
    (emptyEntriesOf w info.uid info.field) (fe && decide (0 < info.emptyCount)) b w n]
  rfl

theorem columnOf_updateField_ne (w : World) (uid field docId v u2 f2 : String)
    (h : ¬(u2 = uid ∧ f2 = field)) :
    columnOf (updateField w uid field docId v) u2 f2 = columnOf w u2 f2 := by
  induction w with
  | nil => rfl
  | cons fs rest ih =>
    unfold updateField at *
    unfold columnOf at *
    rw [List.map_cons, List.find?_cons, List.find?_cons]
    by_cases hk : (fs.uid == uid && fs.field == field) = true
    · rw [if_pos hk]
      by_cases hp : (fs.uid == u2 && fs.field == f2) = true
      · exfalso
        rw [Bool.and_eq_true, beq_iff_eq, beq_iff_eq] at hk hp
        exact h ⟨hp.1.symm.trans hk.1, hp.2.symm.trans hk.2⟩
      · simp only [Bool.not_eq_true] at hp
        simp only [hp]
        exact ih
    · rw [if_neg hk]
      by_cases hp : (fs.uid == u2 && fs.field == f2) = true
      · simp only [hp]
      · simp only [Bool.not_eq_true] at hp
        simp only [hp]
        exact ih

theorem emptyFixLoop_col (g : Nat → String) (failing : List String) (b : Bool)
    (uid field u2 f2 : String) (h : ¬(u2 = uid ∧ f2 = field)) :
    ∀ es w n, columnOf (emptyFixLoop g failing b uid field es w n).world u2 f2 =
      columnOf w u2 f2 := by
  intro es
  induction es with
  | nil => intro w n; rfl
  | cons e rest ih =>
    intro w n
    unfold emptyFixLoop
    cases b with
    | true =>
      simp only [if_true]
      exact ih w (n + 1)
    | false =>
      simp only [Bool.false_eq_true, if_false]
      unfold tryUpdate
      by_cases hf : e.documentId ∈ failing
      · rw [if_pos hf]
      · rw [if_neg hf]
        simp only []
        rw [ih, columnOf_updateField_ne w uid field e.documentId (g n) u2 f2 h]

theorem invalidFixLoop_col (g : Nat → String) (failing : List String) (b : Bool)
    (uid field u2 f2 : String) (h : ¬(u2 = uid ∧ f2 = field)) :
    ∀ issues w n, columnOf (invalidFixLoop g failing b uid field issues w n).world u2 f2 =
      columnOf w u2 f2 := by
  intro issues
  induction issues with
  | nil => intro w n; rfl
  | cons issue rest ih =>
    intro w n
    unfold invalidFixLoop
    cases b with
    | true =>
      simp only [if_true]
      exact ih w (n + 1)
    | false =>
      simp only [Bool.false_eq_true, if_false]
      unfold tryUpdate
      by_cases hf : issue.1 ∈ failing
      · rw [if_pos hf]
        simp only []
        exact ih w (n + 1)
      · rw [if_neg hf]
        simp only []
        rw [ih, columnOf_updateField_ne w uid field issue.1 (g n) u2 f2 h]

theorem dupFixMembers_col (g : Nat → String) (failing : List String) (b : Bool)
    (uid field groupUuid keep u2 f2 : String) (h : ¬(u2 = uid ∧ f2 = field)) :
    ∀ ids w n, columnOf (dupFixMembers g failing b uid field groupUuid keep ids w n).world u2 f2 =
      columnOf w u2 f2 := by
  intro ids
  induction ids with
  | nil => intro w n; rfl
  | cons dcid rest ih =>
    intro w n
    unfold dupFixMembers
    cases b with
    | true =>
      simp only [if_true]
      exact ih w (n + 1)
    | false =>
      simp only [Bool.false_eq_true, if_false]
      unfold tryUpdate
      by_cases hf : dcid ∈ failing
      · rw [if_pos hf]
        simp only []
        exact ih w (n + 1)
      · rw [if_neg hf]
        simp only []
        rw [ih, columnOf_updateField_ne w uid field dcid (g n) u2 f2 h]

theorem dupFixLoop_col (g : Nat → String) (failing : List String) (b : Bool)
    (uid field u2 f2 : String) (h : ¬(u2 = uid ∧ f2 = field)) :
    ∀ issues w n, columnOf (dupFixLoop g failing b uid field issues w n).world u2 f2 =
      columnOf w u2 f2 := by
  intro issues
  induction issues with
  | nil => intro w n; rfl
  | cons issue rest ih =>
    intro w n
    unfold dupFixLoop
    cases hds : issue.2 with
    | nil => exact ih w n
    | cons keep fixIds =>
      simp only []
      rw [ih, dupFixMembers_col g failing b uid field issue.1 keep u2 f2 h]

theorem runFieldStep_col (g : Nat → String) (failing : List String) (opts : MigOptions)
    (info : FieldInfo) (w : World) (n : Nat) (u2 f2 : String)
    (h : ¬(u2 = info.uid ∧ f2 = info.field)) :
    columnOf (runFieldStep g failing opts info w n).world u2 f2 = columnOf w u2 f2 := by
  unfold runFieldStep
  simp only []
  have hc1 : ∀ w0 n0, columnOf ((if (opts.fixEmpty && decide (0 < info.emptyCount)) = true then
      emptyFixLoop g failing opts.dryRun info.uid info.field
        (emptyEntriesOf w info.uid info.field) w0 n0
      else ⟨[], 0, [], w0, n0⟩) : StepOut).world u2 f2 = columnOf w0 u2 f2 := by
    intro w0 n0
    split
    · exact emptyFixLoop_col g failing opts.dryRun info.uid info.field u2 f2 h
        (emptyEntriesOf w info.uid info.field) w0 n0
    · rfl
  have hc2 : ∀ w0 n0, columnOf ((if opts.fixInvalid = true then
      invalidFixLoop g failing opts.dryRun info.uid info.field (invalidsOf info) w0 n0
      else ⟨[], 0, [], w0, n0⟩) : StepOut).world u2 f2 = columnOf w0 u2 f2 := by
    intro w0 n0
    split
    · exact invalidFixLoop_col g failing opts.dryRun info.uid info.field u2 f2 h
        (invalidsOf info) w0 n0
    · rfl
  have hc3 : ∀ w0 n0, columnOf ((if opts.fixDuplicates = true then
      dupFixLoop g failing opts.dryRun info.uid info.field (dupsOf info) w0 n0
      else ⟨[], 0, [], w0, n0⟩) : StepOut).world u2 f2 = columnOf w0 u2 f2 := by
    intro w0 n0
    split
    · exact dupFixLoop_col g failing opts.dryRun info.uid info.field u2 f2 h
        (dupsOf info) w0 n0
    · rfl
  exact (hc3 _ _).trans ((hc2 _ _).trans (hc1 w n))

theorem runMigrationLoop_dry_live (g : Nat → String) (fe fi fd : Bool) :
    ∀ infos w0 wl n,
      (∀ info ∈ infos, columnOf w0 info.uid info.field = columnOf wl info.uid info.field) →
      (infos.map (fun i => (i.uid, i.field))).Nodup →
      (runMigrationLoop g [] ⟨true, fe, fi, fd⟩ infos w0 n).flog =
        (runMigrationLoop g [] ⟨false, fe, fi, fd⟩ infos wl n).flog := by
  intro infos
  induction infos with
  | nil => intro w0 wl n _ _; rfl
  | cons info rest ih =>
    intro w0 wl n hcols hnd
    unfold runMigrationLoop
    simp only []
    have hstep : (runFieldStep g [] ⟨true, fe, fi, fd⟩ info w0 n).flog =
        (runFieldStep g [] ⟨false, fe, fi, fd⟩ info wl n).flog := by
      rw [runFieldStep_log_spec, runFieldStep_log_spec]
      have hee : emptyEntriesOf w0 info.uid info.field = emptyEntriesOf wl info.uid info.field := by
        unfold emptyEntriesOf
        rw [hcols info (List.mem_cons_self info rest)]
      rw [hee]
    have hgen : (runFieldStep g [] ⟨true, fe, fi, fd⟩ info w0 n).genPos =
        (runFieldStep g [] ⟨false, fe, fi, fd⟩ info wl n).genPos :=
      congrArg FieldLog.genPos hstep
    have hw0 : (runFieldStep g [] ⟨true, fe, fi, fd⟩ info w0 n).world = w0 :=
      runFieldStep_dry_world g [] fe fi fd info w0 n
    have hndrest : (rest.map (fun i => (i.uid, i.field))).Nodup := by
      rw [List.map_cons, List.nodup_cons] at hnd
      exact hnd.2
    have hrest : ∀ info2 ∈ rest,
        columnOf (runFieldStep g [] ⟨true, fe, fi, fd⟩ info w0 n).world info2.uid info2.field =
          columnOf (runFieldStep g [] ⟨false, fe, fi, fd⟩ info wl n).world info2.uid info2.field := by
      intro info2 h2
      rw [hw0]
      have hkey : ¬(info2.uid = info.uid ∧ info2.field = info.field) := by
        intro hab
        rw [List.map_cons, List.nodup_cons] at hnd
        exact hnd.1 (List.mem_map.mpr ⟨info2, h2, by rw [hab.1, hab.2]⟩)
      rw [runFieldStep_col g [] ⟨false, fe, fi, fd⟩ info wl n info2.uid info2.field hkey]
      exact hcols info2 (List.mem_cons_of_mem info h2)
    have hIH := ih (runFieldStep g [] ⟨true, fe, fi, fd⟩ info w0 n).world
      (runFieldStep g [] ⟨false, fe, fi, fd⟩ info wl n).world
      (runFieldStep g [] ⟨true, fe, fi, fd⟩ info w0 n).genPos hrest hndrest
    have hIH2 := hIH.trans (congrArg
      (fun m => (runMigrationLoop g [] ⟨false, fe, fi, fd⟩ rest
        (runFieldStep g [] ⟨false, fe, fi, fd⟩ info wl n).world m).flog) hgen)
    have d1 : (runFieldStep g [] ⟨true, fe, fi, fd⟩ info w0 n).changes =
        (runFieldStep g [] ⟨false, fe, fi, fd⟩ info wl n).changes :=
      congrArg FieldLog.changes hstep
    have d2 : (runFieldStep g [] ⟨true, fe, fi, fd⟩ info w0 n).fixedEmpty =
        (runFieldStep g [] ⟨false, fe, fi, fd⟩ info wl n).fixedEmpty :=
      congrArg FieldLog.fixedEmpty hstep
    have d3 : (runFieldStep g [] ⟨true, fe, fi, fd⟩ info w0 n).fixedInvalid =
        (runFieldStep g [] ⟨false, fe, fi, fd⟩ info wl n).fixedInvalid :=
      congrArg FieldLog.fixedInvalid hstep
    have d4 : (runFieldStep g [] ⟨true, fe, fi, fd⟩ info w0 n).fixedDuplicates =
        (runFieldStep g [] ⟨false, fe, fi, fd⟩ info wl n).fixedDuplicates :=
      congrArg FieldLog.fixedDuplicates hstep
    have d5 : (runFieldStep g [] ⟨true, fe, fi, fd⟩ info w0 n).errs =
        (runFieldStep g [] ⟨false, fe, fi, fd⟩ info wl n).errs :=
      congrArg FieldLog.errs hstep
    have e1 : (runMigrationLoop g [] ⟨true, fe, fi, fd⟩ rest
        (runFieldStep g [] ⟨true, fe, fi, fd⟩ info w0 n).world
        (runFieldStep g [] ⟨true, fe, fi, fd⟩ info w0 n).genPos).changes =
        (runMigrationLoop g [] ⟨false, fe, fi, fd⟩ rest
          (runFieldStep g [] ⟨false, fe, fi, fd⟩ info wl n).world
          (runFieldStep g [] ⟨false, fe, fi, fd⟩ info wl n).genPos).changes :=
      congrArg FieldLog.changes hIH2
    have e2 : (runMigrationLoop g [] ⟨true, fe, fi, fd⟩ rest
        (runFieldStep g [] ⟨true, fe, fi, fd⟩ info w0 n).world
        (runFieldStep g [] ⟨true, fe, fi, fd⟩ info w0 n).genPos).fixedEmpty =
        (runMigrationLoop g [] ⟨false, fe, fi, fd⟩ rest
          (runFieldStep g [] ⟨false, fe, fi, fd⟩ info wl n).world
          (runFieldStep g [] ⟨false, fe, fi, fd⟩ info wl n).genPos).fixedEmpty :=
      congrArg FieldLog.fixedEmpty hIH2
    have e3 : (runMigrationLoop g [] ⟨true, fe, fi, fd⟩ rest
        (runFieldStep g [] ⟨true, fe, fi, fd⟩ info w0 n).world
        (runFieldStep g [] ⟨true, fe, fi, fd⟩ info w0 n).genPos).fixedInvalid =
        (runMigrationLoop g [] ⟨false, fe, fi, fd⟩ rest
          (runFieldStep g [] ⟨false, fe, fi, fd⟩ info wl n).world
          (runFieldStep g [] ⟨false, fe, fi, fd⟩ info wl n).genPos).fixedInvalid :=
      congrArg FieldLog.fixedInvalid hIH2
    have e4 : (runMigrationLoop g [] ⟨true, fe, fi, fd⟩ rest
        (runFieldStep g [] ⟨true, fe, fi, fd⟩ info w0 n).world
        (runFieldStep g [] ⟨true, fe, fi, fd⟩ info w0 n).genPos).fixedDuplicates =
        (runMigrationLoop g [] ⟨false, fe, fi, fd⟩ rest
          (runFieldStep g [] ⟨false, fe, fi, fd⟩ info wl n).world
          (runFieldStep g [] ⟨false, fe, fi, fd⟩ info wl n).genPos).fixedDuplicates :=
      congrArg FieldLog.fixedDuplicates hIH2
    have e5 : (runMigrationLoop g [] ⟨true, fe, fi, fd⟩ rest
        (runFieldStep g [] ⟨true, fe, fi, fd⟩ info w0 n).world
        (runFieldStep g [] ⟨true, fe, fi, fd⟩ info w0 n).genPos).errs =
        (runMigrationLoop g [] ⟨false, fe, fi, fd⟩ rest
          (runFieldStep g [] ⟨false, fe, fi, fd⟩ info wl n).world
          (runFieldStep g [] ⟨false, fe, fi, fd⟩ info wl n).genPos).errs :=
      congrArg FieldLog.errs hIH2
    have e6 : (runMigrationLoop g [] ⟨true, fe, fi, fd⟩ rest
        (runFieldStep g [] ⟨true, fe, fi, fd⟩ info w0 n).world
        (runFieldStep g [] ⟨true, fe, fi, fd⟩ info w0 n).genPos).genPos =
        (runMigrationLoop g [] ⟨false, fe, fi, fd⟩ rest
          (runFieldStep g [] ⟨false, fe, fi, fd⟩ info wl n).world
          (runFieldStep g [] ⟨false, fe, fi, fd⟩ info wl n).genPos).genPos :=
      congrArg FieldLog.genPos hIH2
    unfold FieldOut.flog
    simp only []
    rw [d1, d2, d3, d4, d5, e1, e2, e3, e4, e5, e6]

theorem svcFixMembers_slog (g : Nat → String) (u keep : String) :
    ∀ ids (b : Bool) s n,
      (svcFixMembers g b u keep ids s n).slog = svcMembersLogSpec g u keep ids n := by
  intro ids
  induction ids with
  | nil => intro b s n; rfl
  | cons d rest ih =>
    intro b s n
    unfold svcFixMembers svcMembersLogSpec
    rw [← ih b (if b then s else applyUpdate s d (some (g n))) (n + 1)]
    rfl

theorem svcFixGroups_slog (g : Nat → String) :
    ∀ dups (b : Bool) s n, (svcFixGroups g b dups s n).slog = svcGroupsLogSpec g dups n := by
  intro dups
  induction dups with
  | nil => intro b s n; rfl
  | cons grp rest ih =>
    intro b s n
    unfold svcFixGroups svcGroupsLogSpec
    cases hds : grp.documentIds with
    | nil => exact ih b s n
    | cons keep fixIds =>
      simp only []
      have h1 := svcFixMembers_slog g grp.uuid keep fixIds b s n
      have hgen : (svcFixMembers g b grp.uuid keep fixIds s n).genPos =
          (svcMembersLogSpec g grp.uuid keep fixIds n).genPos := congrArg SvcLog.genPos h1
      have h2 := ih b (svcFixMembers g b grp.uuid keep fixIds s n).store
        (svcFixMembers g b grp.uuid keep fixIds s n).genPos
      rw [← hgen, ← h2, ← h1]
      rfl

theorem svcFixMembers_dry_store (g : Nat → String) (u keep : String) :
    ∀ ids s n, (svcFixMembers g true u keep ids s n).store = s := by
  intro ids
  induction ids with
  | nil => intro s n; rfl
  | cons d rest ih =>
    intro s n
    unfold svcFixMembers
    simp only [if_true]
    exact ih s (n + 1)

theorem svcFixGroups_dry_store (g : Nat → String) :
    ∀ dups s n, (svcFixGroups g true dups s n).store = s := by
  intro dups
  induction dups with
  | nil => intro s n; rfl
  | cons grp rest ih =>
    intro s n
    unfold svcFixGroups
    cases hds : grp.documentIds with
    | nil => exact ih s n
    | cons keep fixIds =>
      simp only []
      rw [ih, svcFixMembers_dry_store]

/-- Claim C6 counterexample: the claim as stated is false.  On a store with
two empty rows where the datastore rejects the write to the first, the
live run logs only the first row's change before the empty-category loop
aborts, while the dry run logs both; and independently of any failure
the two result reports always differ in the echoed dryRun flag. -/
theorem c6_counterexample :
    ((runMigration (fun _ => "22222222-2222-4222-8222-222222222222") ["d1"]
        ⟨false, true, true, true⟩
        [⟨"api::a.a", "uuid", [⟨1, "d1", none⟩, ⟨2, "d2", none⟩]⟩] 0).1.changes ≠
      (runMigration (fun _ => "22222222-2222-4222-8222-222222222222") ["d1"]
        ⟨true, true, true, true⟩
        [⟨"api::a.a", "uuid", [⟨1, "d1", none⟩, ⟨2, "d2", none⟩]⟩] 0).1.changes) ∧
    ((runMigration (fun _ => "22222222-2222-4222-8222-222222222222") ["d1"]
        ⟨false, true, true, true⟩
        [⟨"api::a.a", "uuid", [⟨1, "d1", none⟩, ⟨2, "d2", none⟩]⟩] 0).1.dryRun ≠
      (runMigration (fun _ => "22222222-2222-4222-8222-222222222222") ["d1"]
        ⟨true, true, true, true⟩
        [⟨"api::a.a", "uuid", [⟨1, "d1", none⟩, ⟨2, "d2", none⟩]⟩] 0).1.dryRun) := by
  exact ⟨by decide, by decide⟩

/-- Claim C6 amended: when no individual write fails, a dry and a live
runMigration on the same starting state and entropy produce identical
change logs, identical error lists and identical fixed counts — the
result reports agree on everything except the echoed dryRun flag — and
the dry run leaves the datastore unchanged, so the persisted state is
the only other difference; likewise the service duplicate fix produces
the identical report in dry and live mode and leaves the store unchanged
when dry.  The monitored (uid, field) pairs are assumed pairwise
distinct, as schema reflection yields each pair once. -/
theorem c6_dry_run_fidelity (w : World) (g : Nat → String) (n : Nat) (fe fi fd : Bool)
    (hnd : (w.map (fun fs => (fs.uid, fs.field))).Nodup) :
    ((runMigration g [] ⟨true, fe, fi, fd⟩ w n).1.changes =
      (runMigration g [] ⟨false, fe, fi, fd⟩ w n).1.changes) ∧
    ((runMigration g [] ⟨true, fe, fi, fd⟩ w n).1.errors =
      (runMigration g [] ⟨false, fe, fi, fd⟩ w n).1.errors) ∧
    ((runMigration g [] ⟨true, fe, fi, fd⟩ w n).1.fixedEmpty =
      (runMigration g [] ⟨false, fe, fi, fd⟩ w n).1.fixedEmpty) ∧
    ((runMigration g [] ⟨true, fe, fi, fd⟩ w n).1.fixedInvalid =
      (runMigration g [] ⟨false, fe, fi, fd⟩ w n).1.fixedInvalid) ∧
    ((runMigration g [] ⟨true, fe, fi, fd⟩ w n).1.fixedDuplicates =
      (runMigration g [] ⟨false, fe, fi, fd⟩ w n).1.fixedDuplicates) ∧
    ((runMigration g [] ⟨true, fe, fi, fd⟩ w n).2 = w) ∧
    (∀ s m, (fixDuplicatesForField g true s m).1 = (fixDuplicatesForField g false s m).1 ∧
      (fixDuplicatesForField g true s m).2.1 = s) := by
  have hkeys : ((checkMigrationStatus w).map (fun i => (i.uid, i.field))).Nodup := by
    unfold checkMigrationStatus
    rw [List.map_map]
    exact hnd
  have hloop := runMigrationLoop_dry_live g fe fi fd (checkMigrationStatus w) w w n
    (fun info _ => rfl) hkeys
  refine ⟨congrArg FieldLog.changes hloop, congrArg FieldLog.errs hloop,
    congrArg FieldLog.fixedEmpty hloop, congrArg FieldLog.fixedInvalid hloop,
    congrArg FieldLog.fixedDuplicates hloop,
    runMigrationLoop_dry_world g [] fe fi fd (checkMigrationStatus w) w n, ?_⟩
  intro s m
  have h1 := svcFixGroups_slog g (findDuplicatesForField s) true s m
  have h2 := svcFixGroups_slog g (findDuplicatesForField s) false s m
  have h12 := h1.trans h2.symm
  constructor
  · show FixReport.mk (findDuplicatesForField s).length
        (svcFixGroups g true (findDuplicatesForField s) s m).fixed
        (svcFixGroups g true (findDuplicatesForField s) s m).changes =
      FixReport.mk (findDuplicatesForField s).length
        (svcFixGroups g false (findDuplicatesForField s) s m).fixed
        (svcFixGroups g false (findDuplicatesForField s) s m).changes
    rw [show (svcFixGroups g true (findDuplicatesForField s) s m).fixed =
      (svcFixGroups g false (findDuplicatesForField s) s m).fixed from
      congrArg SvcLog.fixed h12]
    rw [show (svcFixGroups g true (findDuplicatesForField s) s m).changes =
      (svcFixGroups g false (findDuplicatesForField s) s m).changes from
      congrArg SvcLog.changes h12]
  · exact svcFixGroups_dry_store g (findDuplicatesForField s) s m

/-- Claim C6 witness: a concrete world where dry and live runs agree on the
log and the dry run leaves the world untouched. -/
theorem c6_dry_run_fidelity_witness :
    ((runMigration (fun _ => "22222222-2222-4222-8222-222222222222") []
        ⟨true, true, true, true⟩
        [⟨"api::a.a", "uuid", [⟨1, "d1", none⟩, ⟨2, "d2", none⟩]⟩] 0).1.changes =
      (runMigration (fun _ => "22222222-2222-4222-8222-222222222222") []
        ⟨false, true, true, true⟩
        [⟨"api::a.a", "uuid", [⟨1, "d1", none⟩, ⟨2, "d2", none⟩]⟩] 0).1.changes) ∧
    ((runMigration (fun _ => "22222222-2222-4222-8222-222222222222") []
        ⟨true, true, true, true⟩
        [⟨"api::a.a", "uuid", [⟨1, "d1", none⟩, ⟨2, "d2", none⟩]⟩] 0).2 =
      [⟨"api::a.a", "uuid", [⟨1, "d1", none⟩, ⟨2, "d2", none⟩]⟩]) :=
  ⟨(c6_dry_run_fidelity [⟨"api::a.a", "uuid", [⟨1, "d1", none⟩, ⟨2, "d2", none⟩]⟩]
      (fun _ => "22222222-2222-4222-8222-222222222222") 0 true true true (by decide)).1,
   (c6_dry_run_fidelity [⟨"api::a.a", "uuid", [⟨1, "d1", none⟩, ⟨2, "d2", none⟩]⟩]
      (fun _ => "22222222-2222-4222-8222-222222222222") 0 true true true (by decide)).2.2.2.2.2.1⟩

theorem emptyFixLoop_changes_kind (g : Nat → String) (failing : List String) (b : Bool)
    (uid field : String) :
    ∀ es w n, ∀ c ∈ (emptyFixLoop g failing b uid field es w n).changes,
      c.kind = .emptyFix := by
  intro es
  induction es with
  | nil => intro w n c hc; simp [emptyFixLoop] at hc
  | cons e rest ih =>
    intro w n c hc
    unfold emptyFixLoop at hc
    cases b with
    | true =>
      simp only [if_true, List.mem_cons] at hc
      rcases hc with h | h
      · rw [h]
      · exact ih w (n + 1) c h
    | false =>
      simp only [Bool.false_eq_true, if_false] at hc
      unfold tryUpdate at hc
      by_cases hf : e.documentId ∈ failing
      · rw [if_pos hf] at hc
        simp only [List.mem_singleton] at hc
        rw [hc]
      · rw [if_neg hf] at hc
        simp only [List.mem_cons] at hc
        rcases hc with h | h
        · rw [h]
        · exact ih _ (n + 1) c h

theorem filterMap_changeKey_empty (l : List MigChange)
    (h : ∀ c ∈ l, c.kind = .emptyFix) : l.filterMap changeKey = [] := by
  induction l with
  | nil => rfl
  | cons c rest ih =>
    rw [List.filterMap_cons]
    have hk := h c (List.mem_cons_self c rest)
    have : changeKey c = none := by
      unfold changeKey
      rw [hk]
    rw [this]
    exact ih (fun x hx => h x (List.mem_cons_of_mem c hx))

theorem invalidFixLoop_keys (g : Nat → String) (failing : List String) (b : Bool)
    (uid field : String) :
    ∀ issues w n,
      (invalidFixLoop g failing b uid field issues w n).changes.filterMap changeKey =
        issues.map (fun issue => (FixKind.invalidFix, uid, field, issue.1, some issue.2)) := by
  intro issues
  induction issues with
  | nil => intro w n; rfl
  | cons issue rest ih =>
    intro w n
    unfold invalidFixLoop
    cases b with
    | true =>
      simp only [if_true, List.filterMap_cons, List.map_cons]
      rw [ih]
      rfl
    | false =>
      simp only [Bool.false_eq_true, if_false]
      unfold tryUpdate
      by_cases hf : issue.1 ∈ failing
      · rw [if_pos hf]
        simp only [List.filterMap_cons, List.map_cons]
        rw [ih]
        rfl
      · rw [if_neg hf]
        simp only [List.filterMap_cons, List.map_cons]
        rw [ih]
        rfl

theorem dupFixMembers_keys (g : Nat → String) (failing : List String) (b : Bool)
    (uid field groupUuid keep : String) :
    ∀ ids w n,
      (dupFixMembers g failing b uid field groupUuid keep ids w n).changes.filterMap changeKey =
        ids.map (fun dcid => (FixKind.duplicateFix, uid, field, dcid, some groupUuid)) := by
  intro ids
  induction ids with
  | nil => intro w n; rfl
  | cons dcid rest ih =>
    intro w n
    unfold dupFixMembers
    cases b with
    | true =>
      simp only [if_true, List.filterMap_cons, List.map_cons]
      rw [ih]
      rfl
    | false =>
      simp only [Bool.false_eq_true, if_false]
      unfold tryUpdate
      by_cases hf : dcid ∈ failing
      · rw [if_pos hf]
        simp only [List.filterMap_cons, List.map_cons]
        rw [ih]
        rfl
      · rw [if_neg hf]
        simp only [List.filterMap_cons, List.map_cons]
        rw [ih]
        rfl

theorem dupFixLoop_keys (g : Nat → String) (failing : List String) (b : Bool)
    (uid field : String) :
    ∀ issues w n,
      (dupFixLoop g failing b uid field issues w n).changes.filterMap changeKey =
        flatMapL (fun issue => issue.2.tail.map
          (fun dcid => (FixKind.duplicateFix, uid, field, dcid, some issue.1))) issues := by
  intro issues
  induction issues with
  | nil => intro w n; rfl
  | cons issue rest ih =>
    intro w n
    unfold dupFixLoop
    cases hds : issue.2 with
    | nil =>
      rw [show flatMapL (fun issue => issue.2.tail.map
        (fun dcid => (FixKind.duplicateFix, uid, field, dcid, some issue.1))) (issue :: rest) =
        issue.2.tail.map (fun dcid => (FixKind.duplicateFix, uid, field, dcid, some issue.1)) ++
        flatMapL (fun issue => issue.2.tail.map
          (fun dcid => (FixKind.duplicateFix, uid, field, dcid, some issue.1))) rest from rfl, hds]
      simp only [List.tail_nil, List.map_nil, List.nil_append]
      exact ih w n
    | cons keep fixIds =>
      rw [show flatMapL (fun issue => issue.2.tail.map
        (fun dcid => (FixKind.duplicateFix, uid, field, dcid, some issue.1))) (issue :: rest) =
        issue.2.tail.map (fun dcid => (FixKind.duplicateFix, uid, field, dcid, some issue.1)) ++
        flatMapL (fun issue => issue.2.tail.map
          (fun dcid => (FixKind.duplicateFix, uid, field, dcid, some issue.1))) rest from rfl, hds]
      simp only [List.tail_cons, List.filterMap_append, dupFixMembers_keys, ih]

theorem guarded_empty_keys (g : Nat → String) (failing : List String) (b : Bool)
    (uid field : String) (es : List Entry) (cond : Bool) (w : World) (n : Nat) :
    ((if cond then emptyFixLoop g failing b uid field es w n
      else ⟨[], 0, [], w, n⟩) : StepOut).changes.filterMap changeKey = [] := by
  cases cond
  · rfl
  · simp only [if_true]
    exact filterMap_changeKey_empty _ (emptyFixLoop_changes_kind g failing b uid field es w n)

theorem guarded_invalid_keys (g : Nat → String) (failing : List String) (b : Bool)
    (uid field : String) (issues : List (String × String)) (cond : Bool) (w : World) (n : Nat) :
    ((if cond then invalidFixLoop g failing b uid field issues w n
      else ⟨[], 0, [], w, n⟩) : StepOut).changes.filterMap changeKey =
      (if cond then issues.map
        (fun issue => (FixKind.invalidFix, uid, field, issue.1, some issue.2)) else []) := by
  cases cond
  · rfl
  · simp only [if_true]
    exact invalidFixLoop_keys g failing b uid field issues w n

theorem guarded_dup_keys (g : Nat → String) (failing : List String) (b : Bool)
    (uid field : String) (issues : List (String × List String)) (cond : Bool) (w : World) (n : Nat) :
    ((if cond then dupFixLoop g failing b uid field issues w n
      else ⟨[], 0, [], w, n⟩) : StepOut).changes.filterMap changeKey =
      (if cond then flatMapL (fun issue => issue.2.tail.map
        (fun dcid => (FixKind.duplicateFix, uid, field, dcid, some issue.1))) issues else []) := by
  cases cond
  · rfl
  · simp only [if_true]
    exact dupFixLoop_keys g failing b uid field issues w n

theorem runFieldStep_keys (g : Nat → String) (failing : List String) (b fe fi fd : Bool)
    (info : FieldInfo) (w : World) (n : Nat) :
    (runFieldStep g failing ⟨b, fe, fi, fd⟩ info w n).changes.filterMap changeKey =
      fieldKeys fi fd info := by
  unfold runFieldStep fieldKeys
  simp only []
  rw [List.filterMap_append, List.filterMap_append]
  rw [guarded_empty_keys, guarded_invalid_keys, guarded_dup_keys]
  rfl

theorem runMigrationLoop_keys (g : Nat → String) (failing : List String) (b fe fi fd : Bool) :
    ∀ infos w n,
      (runMigrationLoop g failing ⟨b, fe, fi, fd⟩ infos w n).changes.filterMap changeKey =
        flatMapL (fieldKeys fi fd) infos := by
  intro infos
  induction infos with
  | nil => intro w n; rfl
  | cons info rest ih =>
    intro w n
    unfold runMigrationLoop
    simp only []
    rw [show flatMapL (fieldKeys fi fd) (info :: rest) =
      fieldKeys fi fd info ++ flatMapL (fieldKeys fi fd) rest from rfl]
    rw [List.filterMap_append, runFieldStep_keys, ih]

theorem length_filter_all_true {α} (p : α → Bool) :
    ∀ l : List α, (∀ x ∈ l, p x = true) → (l.filter p).length = l.length := by
  intro l
  induction l with
  | nil => intro _; rfl
  | cons a rest ih =>
    intro h
    rw [List.filter_cons, if_pos (h a (List.mem_cons_self a rest))]
    rw [List.length_cons, List.length_cons, ih (fun x hx => h x (List.mem_cons_of_mem a hx))]

theorem length_filter_all_false {α} (p : α → Bool) :
    ∀ l : List α, (∀ x ∈ l, p x = false) → (l.filter p).length = 0 := by
  intro l
  induction l with
  | nil => intro _; rfl
  | cons a rest ih =>
    intro h
    rw [List.filter_cons]
    rw [h a (List.mem_cons_self a rest)]
    simp only [Bool.false_eq_true, if_false]
    exact ih (fun x hx => h x (List.mem_cons_of_mem a hx))

theorem invalidFixLoop_conserve (g : Nat → String) (failing : List String)
    (uid field : String) :
    ∀ issues w n,
      ((invalidFixLoop g failing false uid field issues w n).fixed +
        (invalidFixLoop g failing false uid field issues w n).errs.length = issues.length) ∧
      (∀ er ∈ (invalidFixLoop g failing false uid field issues w n).errs,
        isInvalidFixError er = true) := by
  intro issues
  induction issues with
  | nil => intro w n; exact ⟨rfl, by intro er her; simp [invalidFixLoop] at her⟩
  | cons issue rest ih =>
    intro w n
    unfold invalidFixLoop
    simp only [Bool.false_eq_true, if_false]
    unfold tryUpdate
    by_cases hf : issue.1 ∈ failing
    · rw [if_pos hf]
      simp only [List.length_cons]
      constructor
      · have := (ih w (n + 1)).1
        omega
      · intro er her
        simp only [List.mem_cons] at her
        rcases her with h | h
        · rw [h]; rfl
        · exact (ih w (n + 1)).2 er h
    · rw [if_neg hf]
      simp only [List.length_cons]
      constructor
      · have := (ih (updateField w uid field issue.1 (g n)) (n + 1)).1
        omega
      · exact (ih (updateField w uid field issue.1 (g n)) (n + 1)).2

theorem dupFixMembers_conserve (g : Nat → String) (failing : List String)
    (uid field groupUuid keep : String) :
    ∀ ids w n,
      ((dupFixMembers g failing false uid field groupUuid keep ids w n).fixed +
        (dupFixMembers g failing false uid field groupUuid keep ids w n).errs.length =
        ids.length) ∧
      (∀ er ∈ (dupFixMembers g failing false uid field groupUuid keep ids w n).errs,
        isDuplicateFixError er = true) := by
  intro ids
  induction ids with
  | nil => intro w n; exact ⟨rfl, by intro er her; simp [dupFixMembers] at her⟩
  | cons dcid rest ih =>
    intro w n
    unfold dupFixMembers
    simp only [Bool.false_eq_true, if_false]
    unfold tryUpdate
    by_cases hf : dcid ∈ failing
    · rw [if_pos hf]
      simp only [List.length_cons]
      constructor
      · have := (ih w (n + 1)).1
        omega
      · intro er her
        simp only [List.mem_cons] at her
        rcases her with h | h
        · rw [h]; rfl
        · exact (ih w (n + 1)).2 er h
    · rw [if_neg hf]
      simp only [List.length_cons]
      constructor
      · have := (ih (updateField w uid field dcid (g n)) (n + 1)).1
        omega
      · exact (ih (updateField w uid field dcid (g n)) (n + 1)).2

theorem dupFixLoop_conserve (g : Nat → String) (failing : List String)
    (uid field : String) :
    ∀ issues w n,
      ((dupFixLoop g failing false uid field issues w n).fixed +
        (dupFixLoop g failing false uid field issues w n).errs.length =
        (flatMapL (fun issue => issue.2.tail) issues).length) ∧
      (∀ er ∈ (dupFixLoop g failing false uid field issues w n).errs,
        isDuplicateFixError er = true) := by
  intro issues
  induction issues with
  | nil => intro w n; exact ⟨rfl, by intro er her; simp [dupFixLoop] at her⟩
  | cons issue rest ih =>
    intro w n
    unfold dupFixLoop
    rw [show flatMapL (fun issue => issue.2.tail) (issue :: rest) =
      issue.2.tail ++ flatMapL (fun issue => issue.2.tail) rest from rfl]
    cases hds : issue.2 with
    | nil =>
      simp only [List.tail_nil, List.nil_append]
      exact ih w n
    | cons keep fixIds =>
      simp only [List.tail_cons]
      constructor
      · rw [List.length_append, List.length_append]
        have h1 := (dupFixMembers_conserve g failing uid field issue.1 keep fixIds w n).1
        have h2 := (ih (dupFixMembers g failing false uid field issue.1 keep fixIds w n).world
          (dupFixMembers g failing false uid field issue.1 keep fixIds w n).genPos).1
        omega
      · intro er her
        simp only [List.mem_append] at her
        rcases her with h | h
        · exact (dupFixMembers_conserve g failing uid field issue.1 keep fixIds w n).2 er h
        · exact (ih (dupFixMembers g failing false uid field issue.1 keep fixIds w n).world
            (dupFixMembers g failing false uid field issue.1 keep fixIds w n).genPos).2 er h

theorem emptyFixLoop_errs_kind (g : Nat → String) (failing : List String) (b : Bool)
    (uid field : String) :
    ∀ es w n, ∀ er ∈ (emptyFixLoop g failing b uid field es w n).errs,
      isInvalidFixError er = false ∧ isDuplicateFixError er = false := by
  intro es
  induction es with
  | nil => intro w n er her; simp [emptyFixLoop] at her
  | cons e rest ih =>
    intro w n er her
    unfold emptyFixLoop at her
    cases b with
    | true =>
      simp only [if_true] at her
      exact ih w (n + 1) er her
    | false =>
      simp only [Bool.false_eq_true, if_false] at her
      unfold tryUpdate at her
      by_cases hf : e.documentId ∈ failing
      · rw [if_pos hf] at her
        simp only [List.mem_singleton] at her
        rw [her]
        exact ⟨rfl, rfl⟩
      · rw [if_neg hf] at her
        exact ih _ (n + 1) er her

theorem inv_not_dup (er : MigError) (h : isInvalidFixError er = true) :
    isDuplicateFixError er = false := by
  cases er
  · rfl
  · rfl
  · simp [isInvalidFixError] at h

theorem dup_not_inv (er : MigError) (h : isDuplicateFixError er = true) :
    isInvalidFixError er = false := by
  cases er
  · rfl
  · simp [isDuplicateFixError] at h
  · rfl

theorem guarded_empty_errs (g : Nat → String) (failing : List String) (b : Bool)
    (uid field : String) (es : List Entry) (cond : Bool) (w : World) (n : Nat) :
    ((((if cond then emptyFixLoop g failing b uid field es w n
      else ⟨[], 0, [], w, n⟩) : StepOut).errs.filter isInvalidFixError).length = 0) ∧
    ((((if cond then emptyFixLoop g failing b uid field es w n
      else ⟨[], 0, [], w, n⟩) : StepOut).errs.filter isDuplicateFixError).length = 0) := by
  cases cond
  · exact ⟨rfl, rfl⟩
  · simp only [if_true]
    constructor
    · exact length_filter_all_false isInvalidFixError _
        (fun er her => (emptyFixLoop_errs_kind g failing b uid field es w n er her).1)
    · exact length_filter_all_false isDuplicateFixError _
        (fun er her => (emptyFixLoop_errs_kind g failing b uid field es w n er her).2)

theorem guarded_invalid_conserve (g : Nat → String) (failing : List String)
    (uid field : String) (issues : List (String × String)) (cond : Bool) (w : World) (n : Nat) :
    (((if cond then invalidFixLoop g failing false uid field issues w n
      else ⟨[], 0, [], w, n⟩) : StepOut).fixed +
      ((((if cond then invalidFixLoop g failing false uid field issues w n
        else ⟨[], 0, [], w, n⟩) : StepOut).errs.filter isInvalidFixError).length) =
      (if cond then issues.length else 0)) ∧
    ((((if cond then invalidFixLoop g failing false uid field issues w n
      else ⟨[], 0, [], w, n⟩) : StepOut).errs.filter isDuplicateFixError).length = 0) := by
  cases cond
  · exact ⟨rfl, rfl⟩
  · simp only [if_true]
    have hc := invalidFixLoop_conserve g failing uid field issues w n
    constructor
    · rw [length_filter_all_true isInvalidFixError _ hc.2]
      exact hc.1
    · exact length_filter_all_false isDuplicateFixError _
        (fun er her => inv_not_dup er (hc.2 er her))

theorem guarded_dup_conserve (g : Nat → String) (failing : List String)
    (uid field : String) (issues : List (String × List String)) (cond : Bool) (w : World) (n : Nat) :
    (((if cond then dupFixLoop g failing false uid field issues w n
      else ⟨[], 0, [], w, n⟩) : StepOut).fixed +
      ((((if cond then dupFixLoop g failing false uid field issues w n
        else ⟨[], 0, [], w, n⟩) : StepOut).errs.filter isDuplicateFixError).length) =
      (if cond then (flatMapL (fun issue => issue.2.tail) issues).length else 0)) ∧
    ((((if cond then dupFixLoop g failing false uid field issues w n
      else ⟨[], 0, [], w, n⟩) : StepOut).errs.filter isInvalidFixError).length = 0) := by
  cases cond
  · exact ⟨rfl, rfl⟩
  · simp only [if_true]
    have hc := dupFixLoop_conserve g failing uid field issues w n
    constructor
    · rw [length_filter_all_true isDuplicateFixError _ hc.2]
      exact hc.1
    · exact length_filter_all_false isInvalidFixError _
        (fun er her => dup_not_inv er (hc.2 er her))

theorem runFieldStep_conserve (g : Nat → String) (failing : List String)
    (fe fi fd : Bool) (info : FieldInfo) (w : World) (n : Nat) :
    ((runFieldStep g failing ⟨false, fe, fi, fd⟩ info w n).fixedInvalid +
      ((runFieldStep g failing ⟨false, fe, fi, fd⟩ info w n).errs.filter
        isInvalidFixError).length = (if fi then (invalidsOf info).length else 0)) ∧
    ((runFieldStep g failing ⟨false, fe, fi, fd⟩ info w n).fixedDuplicates +
      ((runFieldStep g failing ⟨false, fe, fi, fd⟩ info w n).errs.filter
        isDuplicateFixError).length =
      (if fd then (flatMapL (fun issue => issue.2.tail) (dupsOf info)).length else 0)) := by
  unfold runFieldStep
  simp only []
  rw [List.filter_append, List.filter_append, List.filter_append, List.filter_append,
    List.length_append, List.length_append, List.length_append, List.length_append]
  have h1 := guarded_empty_errs g failing false info.uid info.field
    (emptyEntriesOf w info.uid info.field) (fe && decide (0 < info.emptyCount)) w n
  constructor
  · have h2 := guarded_invalid_conserve g failing info.uid info.field (invalidsOf info) fi
      ((if (fe && decide (0 < info.emptyCount)) = true then
        emptyFixLoop g failing false info.uid info.field
          (emptyEntriesOf w info.uid info.field) w n
        else ⟨[], 0, [], w, n⟩) : StepOut).world
      ((if (fe && decide (0 < info.emptyCount)) = true then
        emptyFixLoop g failing false info.uid info.field
          (emptyEntriesOf w info.uid info.field) w n
        else ⟨[], 0, [], w, n⟩) : StepOut).genPos
    have h3 := guarded_dup_conserve g failing info.uid info.field (dupsOf info) fd
      ((if fi = true then
        invalidFixLoop g failing false info.uid info.field (invalidsOf info)
          ((if (fe && decide (0 < info.emptyCount)) = true then
            emptyFixLoop g failing false info.uid info.field
              (emptyEntriesOf w info.uid info.field) w n
            else ⟨[], 0, [], w, n⟩) : StepOut).world
          ((if (fe && decide (0 < info.emptyCount)) = true then
            emptyFixLoop g failing false info.uid info.field
              (emptyEntriesOf w info.uid info.field) w n
            else ⟨[], 0, [], w, n⟩) : StepOut).genPos
        else ⟨[], 0, [],
          ((if (fe && decide (0 < info.emptyCount)) = true then
            emptyFixLoop g failing false info.uid info.field
              (emptyEntriesOf w info.uid info.field) w n
            else ⟨[], 0, [], w, n⟩) : StepOut).world,
          ((if (fe && decide (0 < info.emptyCount)) = true then
            emptyFixLoop g failing false info.uid info.field
              (emptyEntriesOf w info.uid info.field) w n
            else ⟨[], 0, [], w, n⟩) : StepOut).genPos⟩) : StepOut).world
      ((if fi = true then
        invalidFixLoop g failing false info.uid info.field (invalidsOf info)
          ((if (fe && decide (0 < info.emptyCount)) = true then
            emptyFixLoop g failing false info.uid info.field
              (emptyEntriesOf w info.uid info.field) w n
            else ⟨[], 0, [], w, n⟩) : StepOut).world
          ((if (fe && decide (0 < info.emptyCount)) = true then
            emptyFixLoop g failing false info.uid info.field
              (emptyEntriesOf w info.uid info.field) w n
            else ⟨[], 0, [], w, n⟩) : StepOut).genPos
        else ⟨[], 0, [],
          ((if (fe && decide (0 < info.emptyCount)) = true then
            emptyFixLoop g failing false info.uid info.field
              (emptyEntriesOf w info.uid info.field) w n
            else ⟨[], 0, [], w, n⟩) : StepOut).world,
          ((if (fe && decide (0 < info.emptyCount)) = true then
            emptyFixLoop g failing false info.uid info.field
              (emptyEntriesOf w info.uid info.field) w n
            else ⟨[], 0, [], w, n⟩) : StepOut).genPos⟩) : StepOut).genPos
    omega
  · have h2 := guarded_invalid_conserve g failing info.uid info.field (invalidsOf info) fi
      ((if (fe && decide (0 < info.emptyCount)) = true then
        emptyFixLoop g failing false info.uid info.field
          (emptyEntriesOf w info.uid info.field) w n
        else ⟨[], 0, [], w, n⟩) : StepOut).world
      ((if (fe && decide (0 < info.emptyCount)) = true then
        emptyFixLoop g failing false info.uid info.field
          (emptyEntriesOf w info.uid info.field) w n
        else ⟨[], 0, [], w, n⟩) : StepOut).genPos
    have h3 := guarded_dup_conserve g failing info.uid info.field (dupsOf info) fd
      ((if fi = true then
        invalidFixLoop g failing false info.uid info.field (invalidsOf info)
          ((if (fe && decide (0 < info.emptyCount)) = true then
            emptyFixLoop g failing false info.uid info.field
              (emptyEntriesOf w info.uid info.field) w n
            else ⟨[], 0, [], w, n⟩) : StepOut).world
          ((if (fe && decide (0 < info.emptyCount)) = true then
            emptyFixLoop g failing false info.uid info.field
              (emptyEntriesOf w info.uid info.field) w n
            else ⟨[], 0, [], w, n⟩) : StepOut).genPos
        else ⟨[], 0, [],
          ((if (fe && decide (0 < info.emptyCount)) = true then
            emptyFixLoop g failing false info.uid info.field
              (emptyEntriesOf w info.uid info.field) w n
            else ⟨[], 0, [], w, n⟩) : StepOut).world,
          ((if (fe && decide (0 < info.emptyCount)) = true then
            emptyFixLoop g failing false info.uid info.field
              (emptyEntriesOf w info.uid info.field) w n
            else ⟨[], 0, [], w, n⟩) : StepOut).genPos⟩) : StepOut).world
      ((if fi = true then
        invalidFixLoop g failing false info.uid info.field (invalidsOf info)
          ((if (fe && decide (0 < info.emptyCount)) = true then
            emptyFixLoop g failing false info.uid info.field
              (emptyEntriesOf w info.uid info.field) w n
            else ⟨[], 0, [], w, n⟩) : StepOut).world
          ((if (fe && decide (0 < info.emptyCount)) = true then
            emptyFixLoop g failing false info.uid info.field
              (emptyEntriesOf w info.uid info.field) w n
            else ⟨[], 0, [], w, n⟩) : StepOut).genPos
        else ⟨[], 0, [],
          ((if (fe && decide (0 < info.emptyCount)) = true then
            emptyFixLoop g failing false info.uid info.field
              (emptyEntriesOf w info.uid info.field) w n
            else ⟨[], 0, [], w, n⟩) : StepOut).world,
          ((if (fe && decide (0 < info.emptyCount)) = true then
            emptyFixLoop g failing false info.uid info.field
              (emptyEntriesOf w info.uid info.field) w n
            else ⟨[], 0, [], w, n⟩) : StepOut).genPos⟩) : StepOut).genPos
    omega

theorem runMigrationLoop_conserve (g : Nat → String) (failing : List String)
    (fe fi fd : Bool) :
    ∀ infos w n,
      ((runMigrationLoop g failing ⟨false, fe, fi, fd⟩ infos w n).fixedInvalid +
        ((runMigrationLoop g failing ⟨false, fe, fi, fd⟩ infos w n).errs.filter
          isInvalidFixError).length =
        (infos.map (fun info => if fi then (invalidsOf info).length else 0)).sum) ∧
      ((runMigrationLoop g failing ⟨false, fe, fi, fd⟩ infos w n).fixedDuplicates +
        ((runMigrationLoop g failing ⟨false, fe, fi, fd⟩ infos w n).errs.filter
          isDuplicateFixError).length =
        (infos.map (fun info => if fd then
          (flatMapL (fun issue => issue.2.tail) (dupsOf info)).length else 0)).sum) := by
  intro infos
  induction infos with
  | nil => intro w n; exact ⟨rfl, rfl⟩
  | cons info rest ih =>
    intro w n
    unfold runMigrationLoop
    simp only []
    rw [List.filter_append, List.filter_append, List.length_append, List.length_append,
      List.map_cons, List.sum_cons, List.map_cons, List.sum_cons]
    have h1 := runFieldStep_conserve g failing fe fi fd info w n
    have h2 := ih (runFieldStep g failing ⟨false, fe, fi, fd⟩ info w n).world
      (runFieldStep g failing ⟨false, fe, fi, fd⟩ info w n).genPos
    exact ⟨by omega, by omega⟩

/-- Claim C7 counterexample: the claim as stated is false for the empty
category.  Two empty rows of one field; the write to the first is
rejected by the datastore.  The live run pushes only the first row's
change and the field-level error, then the empty-category loop aborts:
the second empty row of the same category and field is never processed
and its value stays empty. -/
theorem c7_counterexample :
    ((runMigration (fun _ => "22222222-2222-4222-8222-222222222222") ["d1"]
        ⟨false, true, true, true⟩
        [⟨"api::a.a", "uuid", [⟨1, "d1", none⟩, ⟨2, "d2", none⟩]⟩] 0).1.changes.map
        (fun c => c.documentId) = ["d1"]) ∧
    ((runMigration (fun _ => "22222222-2222-4222-8222-222222222222") ["d1"]
        ⟨false, true, true, true⟩
        [⟨"api::a.a", "uuid", [⟨1, "d1", none⟩, ⟨2, "d2", none⟩]⟩] 0).1.errors =
      [.emptyFieldError "api::a.a" "uuid"]) ∧
    ((runMigration (fun _ => "22222222-2222-4222-8222-222222222222") ["d1"]
        ⟨false, true, true, true⟩
        [⟨"api::a.a", "uuid", [⟨1, "d1", none⟩, ⟨2, "d2", none⟩]⟩] 0).2 =
      [⟨"api::a.a", "uuid", [⟨1, "d1", none⟩, ⟨2, "d2", none⟩]⟩]) := by
  exact ⟨by decide, by decide, by decide⟩

/-- Claim C7 amended: in a live runMigration, per-record error isolation holds
for the invalid and duplicate categories — the set of repaired records
(identified by category, uid, field, documentId and old value) is
exactly the one of a failure-free run, and every invalid issue and every
non-kept duplicate member is either counted as fixed or logged as a
per-record error.  For the empty category, the try/catch wraps the whole
per-field loop, so one failing write aborts the remaining empty entries
of that field (see the counterexample) — later categories and later
fields are still processed. -/
theorem c7_per_record_errors (w : World) (g : Nat → String) (n : Nat)
    (failing : List String) (fe fi fd : Bool) :
    ((runMigration g failing ⟨false, fe, fi, fd⟩ w n).1.changes.filterMap changeKey =
      (runMigration g [] ⟨false, fe, fi, fd⟩ w n).1.changes.filterMap changeKey) ∧
    ((runMigration g failing ⟨false, fe, fi, fd⟩ w n).1.fixedInvalid +
      ((runMigration g failing ⟨false, fe, fi, fd⟩ w n).1.errors.filter
        isInvalidFixError).length =
      ((checkMigrationStatus w).map
        (fun info => if fi then (invalidsOf info).length else 0)).sum) ∧
    ((runMigration g failing ⟨false, fe, fi, fd⟩ w n).1.fixedDuplicates +
      ((runMigration g failing ⟨false, fe, fi, fd⟩ w n).1.errors.filter
        isDuplicateFixError).length =
      ((checkMigrationStatus w).map (fun info => if fd then
        (flatMapL (fun issue => issue.2.tail) (dupsOf info)).length else 0)).sum) := by
  refine ⟨?_, (runMigrationLoop_conserve g failing fe fi fd (checkMigrationStatus w) w n).1,
    (runMigrationLoop_conserve g failing fe fi fd (checkMigrationStatus w) w n).2⟩
  show (runMigrationLoop g failing ⟨false, fe, fi, fd⟩ (checkMigrationStatus w) w n).changes.filterMap
      changeKey =
    (runMigrationLoop g [] ⟨false, fe, fi, fd⟩ (checkMigrationStatus w) w n).changes.filterMap
      changeKey
  rw [runMigrationLoop_keys, runMigrationLoop_keys]

/-- Claim C10: importMappings applies values without any format validation or
uniqueness checking.  First run: a committed import with overwrite
stores the value "not-a-uuid", which fails the format validator.
Second run: a committed import assigns row B the value row A already
holds, leaving two distinct Record Identities of the same (recordType,
field) pair with the same value. -/
theorem c10_import_no_validation_no_uniqueness :
    ((importMappings [] false true
        [("api::a.a", [("uuid", [⟨some "A", some "not-a-uuid"⟩])])]
        [⟨"api::a.a", "uuid", [⟨1, "A", some "11111111-1111-4111-8111-111111111111"⟩]⟩]).world =
      [⟨"api::a.a", "uuid", [⟨1, "A", some "not-a-uuid"⟩]⟩]) ∧
    validateUuid "not-a-uuid" = false ∧
    ((importMappings [] false false
        [("api::a.a", [("uuid", [⟨some "B", some "11111111-1111-4111-8111-111111111111"⟩])])]
        [⟨"api::a.a", "uuid", [⟨1, "A", some "11111111-1111-4111-8111-111111111111"⟩,
          ⟨2, "B", none⟩]⟩]).world =
      [⟨"api::a.a", "uuid", [⟨1, "A", some "11111111-1111-4111-8111-111111111111"⟩,
        ⟨2, "B", some "11111111-1111-4111-8111-111111111111"⟩]⟩]) ∧
    ¬ UniqueValues [⟨1, "A", some "11111111-1111-4111-8111-111111111111"⟩,
      ⟨2, "B", some "11111111-1111-4111-8111-111111111111"⟩] := by
  exact ⟨by decide, by decide, by decide, by decide⟩

end AutoUuid
